import Mathlib

/-!
Verification of the AOOP Game-of-Life repository (src/grid.cpp, src/world.cpp,
src/zoo.cpp) against its natural-language specification.

The C++ classes are shallowly embedded: the cell vectors become lists, the
`int` fields become `Int`, and every fallible operation returns
`Except CppErr`.  A C++ `throw std::exception()` / `throw std::runtime_error`
is modelled as the catchable error `CppErr.thrown`; an out-of-range
`std::vector::operator[]` element access (undefined behaviour in C++) is
modelled as the distinguished uncatchable error `CppErr.ub`.  `catch
(const std::exception &)` blocks therefore catch `.thrown` and propagate
`.ub`.  C++ `%` on `int` truncates towards zero and is modelled by
`Int.tmod`.
-/

namespace GOL

/-- `enum Cell : char { DEAD = ' ', ALIVE = '#' }`.  A value-initialised
element of a `std::vector<Cell>` (produced by `vector::resize` growth in
`World::resize`) holds the char `0`, which is neither `DEAD` nor `ALIVE`;
it is modelled by the extra constructor `zeroInit`. -/
inductive Cell : Type where
  | DEAD : Cell
  | ALIVE : Cell
  | zeroInit : Cell

deriving instance DecidableEq for Cell

/-- Errors of the embedding: `thrown` is a thrown C++ exception
(`std::exception` or a subclass such as `std::runtime_error`); `ub` is an
out-of-range `std::vector` element access (undefined behaviour). -/
inductive CppErr : Type where
  | thrown : CppErr
  | ub : CppErr

deriving instance DecidableEq for CppErr

deriving instance DecidableEq for Except

/-- `v[i]` on a `std::vector<Cell>`: unchecked element read, undefined
behaviour out of range. -/
def vecRead (v : List Cell) (i : Int) : Except CppErr Cell :=
  if h : 0 ≤ i ∧ i.toNat < v.length then Except.ok (v.get ⟨i.toNat, h.2⟩)
  else Except.error CppErr.ub

/-- `v[i] = c` on a `std::vector<Cell>`: unchecked element write, undefined
behaviour out of range. -/
def vecWrite (v : List Cell) (i : Int) (c : Cell) : Except CppErr (List Cell) :=
  if 0 ≤ i ∧ i.toNat < v.length then Except.ok (v.set i.toNat c)
  else Except.error CppErr.ub

/-- `std::vector<Cell>::resize(n)` with no fill argument: keeps the first
`n` elements and value-initialises (char 0, i.e. `zeroInit`) any new ones. -/
def vecResizeDefault (v : List Cell) (n : Nat) : List Cell :=
  v.take n ++ List.replicate (n - v.length) Cell.zeroInit

/-- The list `[0, 1, ..., n-1]` over `Int`; empty when `n ≤ 0`.  Models
`for (int i = 0; i < n; i++)`. -/
def intRange (n : Int) : List Int :=
  (List.range n.toNat).map (fun k : Nat => (k : Int))

/-- The list `[a, a+1, ..., b-1]` over `Int`; empty when `b ≤ a`.  Models
`for (int i = a; i < b; i++)`. -/
def intRangeFrom (a b : Int) : List Int :=
  (List.range (b - a).toNat).map (fun k : Nat => a + (k : Int))

/-- A doubly nested `for (y ...) for (x ...)` loop threading a state of type
`σ`; the body receives the state, then `x`, then `y`. -/
def foldCoords {σ : Type} (rows cols : List Int) (body : σ → Int → Int → Except CppErr σ)
    (s : σ) : Except CppErr σ :=
  rows.foldlM (fun sy y => cols.foldlM (fun sx x => body sx x y) sy) s

/-- `class Grid` of grid.h / grid.cpp: `int width; int height;
std::vector<Cell> grid;`. -/
structure Grid : Type where
  width : Int
  height : Int
  grid : List Cell

deriving instance DecidableEq for Grid

/-- `Grid::get_width()`. -/
def Grid.get_width (g : Grid) : Int := g.width

/-- `Grid::get_height()`. -/
def Grid.get_height (g : Grid) : Int := g.height

/-- `Grid::get_total_cells()`: `width * height`. -/
def Grid.get_total_cells (g : Grid) : Int := g.width * g.height

/-- `Grid::get_alive_cells()`: counts elements equal to `Cell::ALIVE`. -/
def Grid.get_alive_cells (g : Grid) : Int :=
  ((g.grid.countP (fun c => decide (c = Cell.ALIVE)) : Nat) : Int)

/-- `Grid::get_dead_cells()`: `get_total_cells() - get_alive_cells()`. -/
def Grid.get_dead_cells (g : Grid) : Int :=
  g.get_total_cells - g.get_alive_cells

/-- `Grid::get_index(x, y)`: `y * get_width() + x`. -/
def Grid.get_index (g : Grid) (x y : Int) : Int := y * g.get_width + x

/-- `Grid::get(x, y)`.  The source bound check is
`x > get_width() || x < 0 || y > get_height() || y < 0` (note `>`, not `>=`,
an off-by-one that admits `x == width` and `y == height`); on passing it the
value is read through `operator()(x, y)`, whose own identical check also
passes, and the raw vector element `grid[get_index(x, y)]` is returned. -/
def Grid.get (g : Grid) (x y : Int) : Except CppErr Cell :=
  if x > g.get_width ∨ x < 0 ∨ y > g.get_height ∨ y < 0 then Except.error CppErr.thrown
  else vecRead g.grid (g.get_index x y)

/-- `Grid::set(x, y, value)`: same (off-by-one) bound check as `Grid::get`,
then writes `grid[get_index(x, y)]` through the reference returned by
`operator()(x, y)` (the additional `grid[get_index(x,y)] = reference`
statement in the source rewrites the same slot with the same value). -/
def Grid.set (g : Grid) (x y : Int) (value : Cell) : Except CppErr Grid :=
  if x > g.get_width ∨ x < 0 ∨ y > g.get_height ∨ y < 0 then Except.error CppErr.thrown
  else do
    let v ← vecWrite g.grid (g.get_index x y) value
    Except.ok { g with grid := v }

/-- `Grid::Grid(width, height)`: dimensions set, vector filled with `DEAD`.
(A negative `width*height` would be a `size_t` conversion fault in C++;
`Int.toNat` maps it to the empty allocation, which no theorem relies on.) -/
def Grid.ofDims (w h : Int) : Grid :=
  ⟨w, h, List.replicate (w * h).toNat Cell.DEAD⟩

/-- `Grid::Grid(square_size)`. -/
def Grid.ofSquare (n : Int) : Grid := Grid.ofDims n n

/-- `Grid::Grid()`: the empty 0x0 grid. -/
def Grid.gridEmpty : Grid := ⟨0, 0, []⟩

/-- One iteration of the "get smaller" loop body of
`Grid::resize(new_width, new_height)`:

`try { if (temp[get_index(x,y)] == ALIVE) { width = new_width;
set(x,y,ALIVE); width = oldWidth; } } catch (const std::exception &) {}`

The `catch` swallows a `thrown` error from `set` — at which point
`this->width` has already been set to `new_width` and is *not* restored —
and cannot catch the undefined behaviour of an out-of-range `temp[...]`
read. -/
def Grid.resizeSmallBody (newW oldW : Int) (temp : List Cell) (g : Grid) (x y : Int) :
    Except CppErr Grid := do
  let c ← vecRead temp (g.get_index x y)
  if c = Cell.ALIVE then
    let g1 : Grid := { g with width := newW }
    match g1.set x y Cell.ALIVE with
    | Except.ok g2 => Except.ok { g2 with width := oldW }
    | Except.error CppErr.thrown => Except.ok g1
    | Except.error CppErr.ub => Except.error CppErr.ub
  else Except.ok g

/-- One iteration of the "get larger" loop body of
`Grid::resize(new_width, new_height)` (no try/catch):

`if (temp[get_index(x,y)] == ALIVE) { width = new_width; set(x,y,ALIVE);
width = oldWidth; } else { width = new_width; set(x,y,DEAD);
width = oldWidth; }` -/
def Grid.resizeLargeBody (newW oldW : Int) (temp : List Cell) (g : Grid) (x y : Int) :
    Except CppErr Grid := do
  let c ← vecRead temp (g.get_index x y)
  let g1 : Grid := { g with width := newW }
  let g2 ← g1.set x y (if c = Cell.ALIVE then Cell.ALIVE else Cell.DEAD)
  Except.ok { g2 with width := oldW }

/-- `Grid::resize(new_width, new_height)`.  `temp` copies the old vector,
the vector is reallocated to `new_width*new_height` `DEAD` cells, then one
of two copy loops runs: if the *old* `get_total_cells()` exceeds the new
total, the guarded "smaller" loop over the *new* rectangle; otherwise the
unguarded "larger" loop over the *old* rectangle.  Finally `width` and
`height` are assigned the new dimensions. -/
def Grid.resize (g : Grid) (newW newH : Int) : Except CppErr Grid := do
  let temp := g.grid
  let g0 : Grid := { g with grid := List.replicate (newW * newH).toNat Cell.DEAD }
  let oldW := g0.get_width
  if g0.get_total_cells > newW * newH then do
    let g1 ← foldCoords (intRange newH) (intRange newW)
      (Grid.resizeSmallBody newW oldW temp) g0
    Except.ok { g1 with width := newW, height := newH }
  else do
    let g1 ← foldCoords (intRange g0.get_height) (intRange g0.get_width)
      (Grid.resizeLargeBody newW oldW temp) g0
    Except.ok { g1 with width := newW, height := newH }

/-- `Grid::resize(square_size)`.  Same shape as the two-argument overload
except that both copy loops iterate over the *old* rectangle and, at the
end, only `width` is assigned `square_size` — the source never updates
`height`. -/
def Grid.resizeSquare (g : Grid) (squareSize : Int) : Except CppErr Grid := do
  let temp := g.grid
  let g0 : Grid := { g with grid := List.replicate (squareSize * squareSize).toNat Cell.DEAD }
  let oldW := g0.get_width
  if g0.get_total_cells > squareSize * squareSize then do
    let g1 ← foldCoords (intRange g0.get_height) (intRange g0.get_width)
      (Grid.resizeSmallBody squareSize oldW temp) g0
    Except.ok { g1 with width := squareSize }
  else do
    let g1 ← foldCoords (intRange g0.get_height) (intRange g0.get_width)
      (Grid.resizeLargeBody squareSize oldW temp) g0
    Except.ok { g1 with width := squareSize }

/-- `Grid::crop(x0, y0, x1, y1)`.  The source's only validation is
`gridWidth*gridHeight > get_total_cells() || gridWidth*gridHeight < 0`;
then the window cells are pushed back from raw `grid[get_index(x, y)]`
reads into a fresh grid whose `width`/`height` are assigned directly. -/
def Grid.crop (g : Grid) (x0 y0 x1 y1 : Int) : Except CppErr Grid :=
  let gridWidth := x1 - x0
  let gridHeight := y1 - y0
  if gridWidth * gridHeight > g.get_total_cells ∨ gridWidth * gridHeight < 0 then
    Except.error CppErr.thrown
  else do
    let cells ← foldCoords (intRangeFrom y0 y1) (intRangeFrom x0 x1)
      (fun acc x y => do
        let c ← vecRead g.grid (g.get_index x y)
        Except.ok (acc ++ [c])) ([] : List Cell)
    Except.ok ⟨gridWidth, gridHeight, cells⟩

/-- One iteration of the `Grid::merge` loop body: the containment check
(`other.height+y0 > get_height() || other.width+x0 > get_width()`) is
re-evaluated inside the loop; then either the alive-only update or the
unconditional overwrite. -/
def Grid.mergeBody (other : Grid) (x0 y0 : Int) (alive_only : Bool) (g : Grid) (x y : Int) :
    Except CppErr Grid :=
  if other.get_height + y0 > g.get_height ∨ other.get_width + x0 > g.get_width then
    Except.error CppErr.thrown
  else if alive_only then do
    let oc ← other.get (x - x0) (y - y0)
    if oc = Cell.ALIVE then g.set x y Cell.ALIVE
    else do
      let dc ← g.get x y
      if dc = Cell.ALIVE then g.set x y Cell.ALIVE
      else do
        let oc2 ← other.get (x - x0) (y - y0)
        g.set x y oc2
  else do
    let oc ← other.get (x - x0) (y - y0)
    g.set x y oc

/-- `Grid::merge(other, x0, y0, alive_only)`: throws when `x0 < 0 || y0 < 0`,
then loops `y` over `[y0, other.height + y0)` and `x` over
`[x0, other.width + x0)` running `Grid.mergeBody`. -/
def Grid.merge (g : Grid) (other : Grid) (x0 y0 : Int) (alive_only : Bool) :
    Except CppErr Grid :=
  if x0 < 0 ∨ y0 < 0 then Except.error CppErr.thrown
  else foldCoords (intRangeFrom y0 (other.get_height + y0)) (intRangeFrom x0 (other.get_width + x0))
    (Grid.mergeBody other x0 y0 alive_only) g

/-- `Grid::rotate(rotation)`.  `Grid temp(get_total_cells())` followed by
erasing `temp.grid` and assigning `temp.grid = this->grid`,
`temp.height = get_width()`, `temp.width = get_height()` nets to the grid
`⟨height, width, grid⟩`.  `rotation % 4` is C++ truncating remainder
(`Int.tmod`).  The `±2` branch overwrites `temp`'s dimensions with the
original ones and reverses the cell vector; the `0` branch returns `*this`;
the trailing `return temp` is unreachable for the remaining (empty) residue
class but kept for faithfulness. -/
def Grid.rotate (g : Grid) (rotation : Int) : Except CppErr Grid :=
  let temp : Grid := ⟨g.get_height, g.get_width, g.grid⟩
  let r := Int.tmod rotation 4
  if r = 1 ∨ r = -3 then
    foldCoords (intRange g.get_height) (intRange g.get_width)
      (fun t x y => do
        let c ← g.get x (g.get_height - 1 - y)
        t.set y x c) temp
  else if r = -1 ∨ r = 3 then
    foldCoords (intRange g.get_height) (intRange g.get_width)
      (fun t x y => do
        let c ← g.get (g.get_width - 1 - x) y
        t.set y x c) temp
  else if r = 2 ∨ r = -2 then
    Except.ok ⟨g.get_width, g.get_height, g.grid.reverse⟩
  else if r = 0 then Except.ok g
  else Except.ok temp

/-- `class World` of world.h / world.cpp: `Grid world; Grid nextWorld;`. -/
structure World : Type where
  world : Grid
  nextWorld : Grid

deriving instance DecidableEq for World

/-- `World::World()`. -/
def World.mkEmpty : World := ⟨Grid.gridEmpty, Grid.gridEmpty⟩

/-- `World::World(square_size)`. -/
def World.ofSquare (n : Int) : World := ⟨Grid.ofDims n n, Grid.ofDims n n⟩

/-- `World::World(width, height)`. -/
def World.ofDims (w h : Int) : World := ⟨Grid.ofDims w h, Grid.ofDims w h⟩

/-- `World::World(initial_state)`: both buffers are copies of the grid. -/
def World.ofGrid (g : Grid) : World := ⟨g, g⟩

/-- `World::get_width()`. -/
def World.get_width (w : World) : Int := w.world.get_width

/-- `World::get_height()`. -/
def World.get_height (w : World) : Int := w.world.get_height

/-- `World::get_state()`. -/
def World.get_state (w : World) : Grid := w.world

/-- `World::resize(new_width, new_height)`: `world.resize(new_width,
new_height)` followed by `nextWorld.grid.resize(new_width*new_height)` —
note only the raw vector of `nextWorld` is resized; its `width` and
`height` fields are left unchanged. -/
def World.resize (w : World) (newW newH : Int) : Except CppErr World := do
  let g ← w.world.resize newW newH
  Except.ok ⟨g, { w.nextWorld with grid := vecResizeDefault w.nextWorld.grid (newW * newH).toNat }⟩

/-- `World::resize(square_size)`: `world.resize(square_size)` followed by
`nextWorld.grid.resize(square_size*square_size)`. -/
def World.resizeSquare (w : World) (n : Int) : Except CppErr World := do
  let g ← w.world.resizeSquare n
  Except.ok ⟨g, { w.nextWorld with grid := vecResizeDefault w.nextWorld.grid (n * n).toNat }⟩

/-- `World::count_neighbours(x, y, toroidal)`: a 3x3 loop over
`newY ∈ [y-1, y+1]`, `newX ∈ [x-1, x+1]`.  The toroidal branch reads
`world.get((newX + get_width()) % get_width(), (newY + get_height()) %
world.get_height())` (C++ truncating `%`); the plain branch skips the
centre and any out-of-bounds coordinate.  (For a zero dimension the C++
`% 0` would itself be undefined behaviour; `Int.tmod` by zero returns its
argument and the subsequent `get` faults, which no theorem relies on.) -/
def World.count_neighbours (w : World) (x y : Int) (toroidal : Bool) : Except CppErr Int :=
  if toroidal then
    (intRangeFrom (y - 1) (y + 2)).foldlM (fun alive newY =>
      (intRangeFrom (x - 1) (x + 2)).foldlM (fun alive newX =>
        if newX = x ∧ newY = y then Except.ok alive
        else do
          let c ← w.world.get (Int.tmod (newX + w.get_width) w.get_width)
            (Int.tmod (newY + w.get_height) w.world.get_height)
          Except.ok (if c = Cell.ALIVE then alive + 1 else alive)) alive) (0 : Int)
  else
    (intRangeFrom (y - 1) (y + 2)).foldlM (fun alive newY =>
      (intRangeFrom (x - 1) (x + 2)).foldlM (fun alive newX =>
        if ¬(newX = x ∧ newY = y) ∧ (newX < w.get_width ∧ newX > -1) ∧
            (newY > -1 ∧ newY < w.get_height) then do
          let c ← w.world.get newX newY
          Except.ok (if c = Cell.ALIVE then alive + 1 else alive)
        else Except.ok alive) alive) (0 : Int)

/-- One iteration of the `World::step` cell loop.  The toroidal and plain
loops of the source are identical up to the flag passed to
`count_neighbours` and the dead case being written `else if (world.get(x,y)
== Cell::DEAD)` (toroidal) versus a bare `else` (plain).  A dead cell with
`alive != 3` — and, in the toroidal branch, any cell that is neither
`ALIVE` nor `DEAD` — is *not* written to `nextWorld`, whose stale value
survives. -/
def World.stepBody (toroidal : Bool) (st : World) (x y : Int) : Except CppErr World := do
  let alive ← st.count_neighbours x y toroidal
  let c ← st.world.get x y
  if c = Cell.ALIVE then
    if alive < 2 then do
      let ng ← st.nextWorld.set x y Cell.DEAD
      Except.ok ⟨st.world, ng⟩
    else if alive = 2 ∨ alive = 3 then do
      let ng ← st.nextWorld.set x y Cell.ALIVE
      Except.ok ⟨st.world, ng⟩
    else if alive > 3 then do
      let ng ← st.nextWorld.set x y Cell.DEAD
      Except.ok ⟨st.world, ng⟩
    else Except.ok st
  else if toroidal then
    if c = Cell.DEAD then
      if alive = 3 then do
        let ng ← st.nextWorld.set x y Cell.ALIVE
        Except.ok ⟨st.world, ng⟩
      else Except.ok st
    else Except.ok st
  else
    if alive = 3 then do
      let ng ← st.nextWorld.set x y Cell.ALIVE
      Except.ok ⟨st.world, ng⟩
    else Except.ok st

/-- `World::step(toroidal)`: runs the cell loop over the current grid's
rectangle, then `this->world = nextWorld` — a copy assignment (not a swap),
leaving both buffers equal. -/
def World.step (w : World) (toroidal : Bool) : Except CppErr World := do
  let w2 ← foldCoords (intRange w.world.get_height) (intRange w.world.get_width)
    (World.stepBody toroidal) w
  Except.ok ⟨w2.nextWorld, w2.nextWorld⟩

/-- `World::advance(steps, toroidal)`: `for (int i = 0; i < steps; i++)`
calling `step(toroidal)` (the source's `if/else if` on the flag invokes
`step(true)` or `step(false)` respectively). -/
def World.advance (w : World) (steps : Int) (toroidal : Bool) : Except CppErr World :=
  (intRange steps).foldlM (fun st _ => if toroidal then st.step true else st.step false) w

/-- The data loop of `Zoo::save_binary`: `padSize = get_total_cells() +
(get_total_cells() % 8)`; for `i ∈ [0, padSize)` the raw vector element
`grid.grid[i]` is read (undefined behaviour past the end), bit `count` of
an eight-bit `std::bitset` is assigned, and each time `count` reaches 8 the
byte is appended to the stream; a final partial byte is never written.
The byte is modelled as a list of eight bits (index = bit position,
LSB-first, matching `bitset::operator[]`). -/
def Zoo.save_binary_payload (g : Grid) : Except CppErr (List (List Bool)) := do
  let padSize := g.get_total_cells + Int.tmod g.get_total_cells 8
  let res ← (intRange padSize).foldlM
    (fun (st : List Bool × Int × List (List Bool)) i => do
      let c ← vecRead g.grid i
      let byte := st.1.set st.2.1.toNat (c = Cell.ALIVE)
      let count := st.2.1 + 1
      if count = 8 then Except.ok (byte, 0, st.2.2 ++ [byte])
      else Except.ok (byte, count, st.2.2))
    (List.replicate 8 false, (0 : Int), ([] : List (List Bool)))
  Except.ok res.2.2

/-- Total number of bytes `Zoo::save_binary` writes to the stream: the two
4-byte dimension writes plus the emitted data bytes. -/
def Zoo.save_binary_byte_count (g : Grid) : Except CppErr Nat := do
  let d ← Zoo.save_binary_payload g
  Except.ok (8 + d.length)

/-! ## Pure specification-side definitions -/

/-- The cell stored at coordinate `(x, y)` under the documented row-major
layout (`DEAD` as the out-of-range placeholder; only used in range). -/
def cellAt (g : Grid) (x y : Int) : Cell :=
  g.grid.getD (y * g.width + x).toNat Cell.DEAD

/-- The contribution of one surrounding coordinate `(nx, ny)` to the
live-neighbour count of the specification: outside coordinates contribute
`0` when non-toroidal and are wrapped per axis by (mathematical) modulo
when toroidal. -/
def nbrOne (g : Grid) (toroidal : Bool) (nx ny : Int) : Int :=
  if toroidal then
    (if cellAt g (nx % g.width) (ny % g.height) = Cell.ALIVE then 1 else 0)
  else
    (if 0 ≤ nx ∧ nx < g.width ∧ 0 ≤ ny ∧ ny < g.height ∧ cellAt g nx ny = Cell.ALIVE
     then 1 else 0)

/-- The specification's live-neighbour count `n` at `(x, y)`: the sum over
the 8 surrounding coordinates. -/
def nbrCount (g : Grid) (toroidal : Bool) (x y : Int) : Int :=
  nbrOne g toroidal (x - 1) (y - 1) + nbrOne g toroidal x (y - 1) +
    nbrOne g toroidal (x + 1) (y - 1) +
    nbrOne g toroidal (x - 1) y + nbrOne g toroidal (x + 1) y +
    nbrOne g toroidal (x - 1) (y + 1) + nbrOne g toroidal x (y + 1) +
    nbrOne g toroidal (x + 1) (y + 1)

/-- Conway's rule as the claim states it: an alive cell stays alive iff
`n ∈ {2, 3}`; a dead cell becomes alive iff `n = 3`; otherwise dead. -/
def conwayCell (g : Grid) (toroidal : Bool) (x y : Int) : Cell :=
  if cellAt g x y = Cell.ALIVE then
    (if nbrCount g toroidal x y = 2 ∨ nbrCount g toroidal x y = 3 then Cell.ALIVE
     else Cell.DEAD)
  else (if nbrCount g toroidal x y = 3 then Cell.ALIVE else Cell.DEAD)

/-- Writing cell `(x, y)` at its row-major slot, as a total function on the
specification side (in-range uses are justified by the lemmas below). -/
def writeCell (g : Grid) (x y : Int) (v : Cell) : Grid :=
  { g with grid := g.grid.set (y * g.width + x).toNat v }

/-- Well-formed grid: the documented class invariant (non-negative
dimensions, `cells.length = width * height`, and every stored value one of
the two named `Cell` values). -/
def Grid.wf (g : Grid) : Prop :=
  0 ≤ g.width ∧ 0 ≤ g.height ∧ g.grid.length = (g.width * g.height).toNat ∧
    ∀ c ∈ g.grid, c = Cell.DEAD ∨ c = Cell.ALIVE

instance (g : Grid) : Decidable g.wf := by
  unfold Grid.wf
  infer_instance

/-- Worlds reachable through the public `World` interface.  `ofGrid` is
restricted to well-formed grids — every well-formed grid is producible via
`Grid(width, height)` and in-range `set` calls, so this is a conservative
under-approximation of the program-reachable worlds. -/
inductive Reachable : World → Prop where
  | mkEmpty : Reachable World.mkEmpty
  | ofSquare (n : Int) : Reachable (World.ofSquare n)
  | ofDims (w h : Int) : Reachable (World.ofDims w h)
  | ofGrid (g : Grid) : g.wf → Reachable (World.ofGrid g)
  | step (w w2 : World) (t : Bool) : Reachable w → w.step t = Except.ok w2 → Reachable w2
  | advance (w w2 : World) (s : Int) (t : Bool) :
      Reachable w → w.advance s t = Except.ok w2 → Reachable w2
  | resize (w w2 : World) (a b : Int) :
      Reachable w → w.resize a b = Except.ok w2 → Reachable w2
  | resizeSquare (w w2 : World) (n : Int) :
      Reachable w → w.resizeSquare n = Except.ok w2 → Reachable w2

/-- One surrounding coordinate's contribution with the centre masked out:
the value the 3x3 loops of `count_neighbours` add for `(nx, ny)`. -/
def nbrOneC (g : Grid) (t : Bool) (x y nx ny : Int) : Int :=
  if nx = x ∧ ny = y then 0 else nbrOne g t nx ny

/-- Pure mirror of one `World::step` cell iteration, valid on states whose
current grid holds only the two named cell values: a dead cell with
`n ≠ 3` is skipped (its stale `next` value survives); every other cell is
written with its Conway value. -/
def stepPure (t : Bool) (st : World) (x y : Int) : World :=
  if cellAt st.world x y = Cell.DEAD ∧ nbrCount st.world t x y ≠ 3 then st
  else ⟨st.world, writeCell st.nextWorld x y (conwayCell st.world t x y)⟩

/-- Pure mirror of one `Grid::merge` cell iteration (on well-formed cell
values): sticky-alive union for `alive_only`, plain overwrite otherwise. -/
def mergePure (other : Grid) (x0 y0 : Int) (alive_only : Bool) (st : Grid) (x y : Int) :
    Grid :=
  if alive_only then
    writeCell st x y
      (if cellAt st x y = Cell.ALIVE ∨ cellAt other (x - x0) (y - y0) = Cell.ALIVE
       then Cell.ALIVE else Cell.DEAD)
  else writeCell st x y (cellAt other (x - x0) (y - y0))

/-- Pure mirror of one `Grid::rotate(1)` cell iteration: writes destination
coordinate `(y, x)` with the source cell `(x, height-1-y)`. -/
def rotPure (g : Grid) (st : Grid) (x y : Int) : Grid :=
  writeCell st y x (cellAt g x (g.height - 1 - y))

/-- What a clockwise quarter-turn produces: swapped dimensions, same cell
count, and destination `(px, py)` holding source `(py, height-1-px)`. -/
def RotSpec (g g2 : Grid) : Prop :=
  g2.width = g.height ∧ g2.height = g.width ∧ g2.grid.length = g.grid.length ∧
    ∀ px py, 0 ≤ px → px < g.height → 0 ≤ py → py < g.width →
      cellAt g2 px py = cellAt g py (g.height - 1 - px)

/-- Loop invariant frame of the step proof: the current grid is pinned to
`W` and the next grid keeps `W`'s dimensions and cell count. -/
def PStep (W : Grid) (st : World) : Prop :=
  st.world = W ∧ st.nextWorld.width = W.width ∧ st.nextWorld.height = W.height ∧
    st.nextWorld.grid.length = (W.width * W.height).toNat

/-- Loop invariant frame of the merge proof: dimensions, cell count and
cell-value well-formedness of the destination are preserved. -/
def PMerge (g0 : Grid) (st : Grid) : Prop :=
  st.width = g0.width ∧ st.height = g0.height ∧ st.grid.length = g0.grid.length ∧
    ∀ c ∈ st.grid, c = Cell.DEAD ∨ c = Cell.ALIVE

/-- Loop invariant frame of the rotate proof. -/
def PRot (g : Grid) (st : Grid) : Prop :=
  st.width = g.height ∧ st.height = g.width ∧ st.grid.length = g.grid.length

/-- Loop invariant of the step proof, parameterised by the current row `y`
and column bound `b`: cells before position `(b, y)` in raster order hold
their Conway value in the next buffer; later cells still hold the original
(`W`) value. -/
def StepInv (W : Grid) (t : Bool) (st : World) (y b : Int) : Prop :=
  ∀ px py : Int, 0 ≤ px → px < W.width → 0 ≤ py → py < W.height →
    ((py < y ∨ (py = y ∧ px < b)) → cellAt st.nextWorld px py = conwayCell W t px py) ∧
    (¬(py < y ∨ (py = y ∧ px < b)) → cellAt st.nextWorld px py = cellAt W px py)

/-- The value `Grid::merge` leaves in a covered destination cell (for
well-formed cell values): sticky-alive union when `alive_only`, otherwise
the source value. -/
def mergedVal (g other : Grid) (x0 y0 : Int) (alive_only : Bool) (x y : Int) : Cell :=
  if alive_only then
    (if cellAt g x y = Cell.ALIVE ∨ cellAt other (x - x0) (y - y0) = Cell.ALIVE
     then Cell.ALIVE else Cell.DEAD)
  else cellAt other (x - x0) (y - y0)

/-- The full merge contract of claim C7 at a destination `g` and source
`other` placed at `(x0, y0)`: with `alive_only` the merge succeeds and each
covered cell is ALIVE iff destination or source was ALIVE and DEAD iff
both were DEAD, uncovered cells are untouched, and the destination's alive
count never decreases; without `alive_only` every covered cell is
overwritten with the source value; and (closed examples) an overwrite can
both decrease and increase the alive count. -/
def mergeContractProp (g other : Grid) (x0 y0 : Int) : Prop :=
  (∃ g2, g.merge other x0 y0 true = Except.ok g2 ∧ g2.width = g.width ∧
    g2.height = g.height ∧
    (∀ x y : Int, x0 ≤ x → x < x0 + other.width → y0 ≤ y → y < y0 + other.height →
      ((cellAt g2 x y = Cell.ALIVE ↔
        (cellAt g x y = Cell.ALIVE ∨ cellAt other (x - x0) (y - y0) = Cell.ALIVE)) ∧
       (cellAt g2 x y = Cell.DEAD ↔
        (cellAt g x y = Cell.DEAD ∧ cellAt other (x - x0) (y - y0) = Cell.DEAD)))) ∧
    (∀ x y : Int, 0 ≤ x → x < g.width → 0 ≤ y → y < g.height →
      ¬(x0 ≤ x ∧ x < x0 + other.width ∧ y0 ≤ y ∧ y < y0 + other.height) →
      cellAt g2 x y = cellAt g x y) ∧
    g.get_alive_cells ≤ g2.get_alive_cells) ∧
  (∃ g3, g.merge other x0 y0 false = Except.ok g3 ∧ g3.width = g.width ∧
    g3.height = g.height ∧
    (∀ x y : Int, x0 ≤ x → x < x0 + other.width → y0 ≤ y → y < y0 + other.height →
      cellAt g3 x y = cellAt other (x - x0) (y - y0)) ∧
    (∀ x y : Int, 0 ≤ x → x < g.width → 0 ≤ y → y < g.height →
      ¬(x0 ≤ x ∧ x < x0 + other.width ∧ y0 ≤ y ∧ y < y0 + other.height) →
      cellAt g3 x y = cellAt g x y)) ∧
  ((⟨1, 1, [Cell.ALIVE]⟩ : Grid).merge (⟨1, 1, [Cell.DEAD]⟩ : Grid) 0 0 false).map
      Grid.get_alive_cells = Except.ok 0 ∧
  ((⟨1, 1, [Cell.DEAD]⟩ : Grid).merge (⟨1, 1, [Cell.ALIVE]⟩ : Grid) 0 0 false).map
      Grid.get_alive_cells = Except.ok 1

/-- Loop invariant of the merge proof: covered cells before window position
`(b, y)` in raster order hold the merged value; all other cells hold the
original destination value. -/
def MergeInv (g other : Grid) (x0 y0 : Int) (ao : Bool) (st : Grid) (y b : Int) : Prop :=
  ∀ px py : Int, 0 ≤ px → px < g.width → 0 ≤ py → py < g.height →
    (((x0 ≤ px ∧ px < x0 + other.width ∧ y0 ≤ py ∧ py < y0 + other.height) ∧
        (py < y ∨ (py = y ∧ px < b))) →
      cellAt st px py = mergedVal g other x0 y0 ao px py) ∧
    (¬((x0 ≤ px ∧ px < x0 + other.width ∧ y0 ≤ py ∧ py < y0 + other.height) ∧
        (py < y ∨ (py = y ∧ px < b))) →
      cellAt st px py = cellAt g px py)

/-- Loop invariant of the rotate proof: iteration `(y, x)` of the source
loop writes destination coordinate `(y, x)`, so destination cells `(px, py)`
with `px < y`, or `px = y` and `py < b`, already hold their rotated value. -/
def RotInv (g st : Grid) (y b : Int) : Prop :=
  ∀ px py : Int, 0 ≤ px → px < g.height → 0 ≤ py → py < g.width →
    (px < y ∨ (px = y ∧ py < b)) → cellAt st px py = cellAt g py (g.height - 1 - px)

/-- The world reached by `World(Grid(2,1) with both cells ALIVE)` followed
by `resize(1, 2)`: its current grid is the resized `1 x 2` buffer while its
next buffer still records `2 x 1`. -/
def w1bad : World :=
  ⟨⟨1, 2, [Cell.ALIVE, Cell.ALIVE]⟩, ⟨2, 1, [Cell.ALIVE, Cell.ALIVE]⟩⟩

/-- Claim C1, formalized as stated: every reachable world with positive
dimensions steps to a grid that holds Conway's rule (with the claim's
neighbour count) at every in-bounds coordinate. -/
def C1_claim_statement : Prop :=
  ∀ w : World, Reachable w → 0 < w.world.width → 0 < w.world.height → ∀ t : Bool,
    ∃ w2, w.step t = Except.ok w2 ∧
      w2.world.width = w.world.width ∧ w2.world.height = w.world.height ∧
      ∀ x y : Int, 0 ≤ x → x < w.world.width → 0 ≤ y → y < w.world.height →
        w2.world.get x y = Except.ok (conwayCell w.world t x y)

/-! ## Shared infrastructure lemmas -/

theorem mem_intRange {n x : Int} (h : x ∈ intRange n) : 0 ≤ x ∧ x < n := by
  simp only [intRange, List.mem_map, List.mem_range] at h
  rcases h with ⟨k, hk, rfl⟩
  omega

theorem mem_intRangeFrom {a b x : Int} (h : x ∈ intRangeFrom a b) : a ≤ x ∧ x < b := by
  simp only [intRangeFrom, List.mem_map, List.mem_range] at h
  rcases h with ⟨k, hk, rfl⟩
  omega

theorem foldlM_ok_of_body {σ α : Type} (P : σ → Prop) (f : σ → α → Except CppErr σ)
    (fp : σ → α → σ) :
    ∀ (l : List α), (∀ s a, P s → a ∈ l → f s a = Except.ok (fp s a) ∧ P (fp s a)) →
      ∀ s, P s → l.foldlM f s = Except.ok (l.foldl fp s) ∧ P (l.foldl fp s) := by
  intro l
  induction l with
  | nil => exact fun _ s hs => ⟨rfl, hs⟩
  | cons a l ih =>
      intro hbody s hs
      have h1 := hbody s a hs (List.mem_cons_self a l)
      have h2 := ih (fun s2 b hs2 hb => hbody s2 b hs2 (List.mem_cons_of_mem a hb))
        (fp s a) h1.2
      rw [List.foldlM_cons, h1.1, List.foldl_cons]
      exact h2

theorem foldlM_add_sum (body : Int → Int → Except CppErr Int) (f : Int → Int) :
    ∀ (L : List Int), (∀ acc e, e ∈ L → body acc e = Except.ok (acc + f e)) →
      ∀ acc, L.foldlM body acc = Except.ok (acc + (L.map f).sum) := by
  intro L
  induction L with
  | nil =>
      intro _ acc
      rw [List.foldlM_nil, List.map_nil, List.sum_nil, add_zero]
      rfl
  | cons a L ih =>
      intro h acc
      rw [List.foldlM_cons, h acc a (List.mem_cons_self a L)]
      have h3 := ih (fun acc2 e he => h acc2 e (List.mem_cons_of_mem a he)) (acc + f a)
      show List.foldlM body (acc + f a) L = _
      rw [h3, List.map_cons, List.sum_cons]
      congr 1
      omega

theorem rowMajor_nonneg {w x y : Int} (hx0 : 0 ≤ x) (hy0 : 0 ≤ y) (hw : 0 ≤ w) :
    0 ≤ y * w + x :=
  add_nonneg (mul_nonneg hy0 hw) hx0

theorem rowMajor_lt {w h x y : Int} (hx0 : 0 ≤ x) (hx : x < w) (hy0 : 0 ≤ y) (hy : y < h) :
    y * w + x < w * h := by
  have h1 : y * w + x < (y + 1) * w := by nlinarith
  have h2 : (y + 1) * w ≤ h * w := by nlinarith
  nlinarith

theorem rowMajor_inj {w x y x2 y2 : Int} (hx0 : 0 ≤ x) (hx : x < w) (hx20 : 0 ≤ x2)
    (hx2 : x2 < w) (heq : y * w + x = y2 * w + x2) : x = x2 ∧ y = y2 := by
  have key : y = y2 := by
    by_contra hne
    rcases lt_or_gt_of_ne hne with hlt | hgt
    · have h1 : 1 * w ≤ (y2 - y) * w := mul_le_mul_of_nonneg_right (by omega) (by omega)
      nlinarith
    · have h1 : 1 * w ≤ (y - y2) * w := mul_le_mul_of_nonneg_right (by omega) (by omega)
      nlinarith
  subst key
  exact ⟨by linarith, rfl⟩

theorem toNat_lt_of_lt {i T : Int} {n : Nat} (h0 : 0 ≤ i) (h1 : i < T) (h2 : n = T.toNat) :
    i.toNat < n := by omega

theorem toNat_mul_of_nonneg {a b : Int} (ha : 0 ≤ a) (hb : 0 ≤ b) :
    (a * b).toNat = a.toNat * b.toNat := by
  rcases Int.eq_ofNat_of_zero_le ha with ⟨n, rfl⟩
  rcases Int.eq_ofNat_of_zero_le hb with ⟨m, rfl⟩
  rfl

theorem getD_set_self {l : List Cell} {n : Nat} {v d : Cell} (h : n < l.length) :
    (l.set n v).getD n d = v := by
  rw [List.getD_eq_getElem (l.set n v) d (by simpa using h)]
  simp [h]

theorem getD_set_ne {l : List Cell} {n m : Nat} {v d : Cell} (hne : n ≠ m) :
    (l.set n v).getD m d = l.getD m d := by
  simp [List.getD, List.getElem?_set_ne hne]

theorem idx_toNat_lt {g : Grid} {x y : Int} (hx0 : 0 ≤ x) (hx : x < g.width)
    (hy0 : 0 ≤ y) (hy : y < g.height)
    (hlen : g.grid.length = (g.width * g.height).toNat) :
    (y * g.width + x).toNat < g.grid.length :=
  toNat_lt_of_lt (rowMajor_nonneg hx0 hy0 (by omega)) (rowMajor_lt hx0 hx hy0 hy) hlen

theorem Grid.get_ok {g : Grid} {x y : Int} (hx0 : 0 ≤ x) (hx : x < g.width)
    (hy0 : 0 ≤ y) (hy : y < g.height)
    (hlen : g.grid.length = (g.width * g.height).toNat) :
    g.get x y = Except.ok (cellAt g x y) := by
  have hnn : 0 ≤ y * g.width + x := rowMajor_nonneg hx0 hy0 (by omega)
  have hlt : (y * g.width + x).toNat < g.grid.length := idx_toNat_lt hx0 hx hy0 hy hlen
  simp only [Grid.get, Grid.get_width, Grid.get_height, Grid.get_index, vecRead, cellAt]
  rw [if_neg (by omega), dif_pos ⟨hnn, hlt⟩, List.getD_eq_getElem g.grid Cell.DEAD hlt]
  rfl

theorem Grid.set_ok {g : Grid} {x y : Int} {v : Cell} (hx0 : 0 ≤ x) (hx : x < g.width)
    (hy0 : 0 ≤ y) (hy : y < g.height)
    (hlen : g.grid.length = (g.width * g.height).toNat) :
    g.set x y v = Except.ok (writeCell g x y v) := by
  have hnn : 0 ≤ y * g.width + x := rowMajor_nonneg hx0 hy0 (by omega)
  have hlt : (y * g.width + x).toNat < g.grid.length := idx_toNat_lt hx0 hx hy0 hy hlen
  simp only [Grid.set, Grid.get_width, Grid.get_height, Grid.get_index, vecWrite, writeCell]
  rw [if_neg (by omega), if_pos ⟨hnn, hlt⟩]
  rfl

theorem writeCell_width (g : Grid) (x y : Int) (v : Cell) : (writeCell g x y v).width = g.width :=
  rfl

theorem writeCell_height (g : Grid) (x y : Int) (v : Cell) :
    (writeCell g x y v).height = g.height := rfl

theorem writeCell_length (g : Grid) (x y : Int) (v : Cell) :
    (writeCell g x y v).grid.length = g.grid.length := by
  simp [writeCell]

theorem cellAt_writeCell_self {g : Grid} {x y : Int} {v : Cell} (hx0 : 0 ≤ x)
    (hx : x < g.width) (hy0 : 0 ≤ y) (hy : y < g.height)
    (hlen : g.grid.length = (g.width * g.height).toNat) :
    cellAt (writeCell g x y v) x y = v := by
  have hlt : (y * g.width + x).toNat < g.grid.length := idx_toNat_lt hx0 hx hy0 hy hlen
  simp only [cellAt, writeCell]
  exact getD_set_self hlt

theorem cellAt_writeCell_ne {g : Grid} {x y a b : Int} {v : Cell} (hx0 : 0 ≤ x)
    (hx : x < g.width) (ha0 : 0 ≤ a) (ha : a < g.width) (hy0 : 0 ≤ y) (hb0 : 0 ≤ b)
    (hne : ¬(a = x ∧ b = y)) :
    cellAt (writeCell g x y v) a b = cellAt g a b := by
  simp only [cellAt, writeCell]
  apply getD_set_ne
  intro hEq
  have hw : 0 ≤ g.width := by omega
  have h1 : 0 ≤ y * g.width + x := rowMajor_nonneg hx0 hy0 hw
  have h2 : 0 ≤ b * g.width + a := rowMajor_nonneg ha0 hb0 hw
  have h3 : y * g.width + x = b * g.width + a := by omega
  have h4 := rowMajor_inj hx0 hx ha0 ha h3
  exact hne ⟨h4.1.symm, h4.2.symm⟩

theorem cellAt_mem {g : Grid} {x y : Int} (hx0 : 0 ≤ x) (hx : x < g.width)
    (hy0 : 0 ≤ y) (hy : y < g.height)
    (hlen : g.grid.length = (g.width * g.height).toNat) : cellAt g x y ∈ g.grid := by
  have hlt : (y * g.width + x).toNat < g.grid.length := idx_toNat_lt hx0 hx hy0 hy hlen
  rw [cellAt, List.getD_eq_getElem g.grid Cell.DEAD hlt]
  exact List.getElem_mem hlt

theorem exists_coords {w h : Int} (hw : 0 ≤ w) (hh : 0 ≤ h) {k : Nat}
    (hk : k < (w * h).toNat) :
    ∃ x y : Int, 0 ≤ x ∧ x < w ∧ 0 ≤ y ∧ y < h ∧ (y * w + x).toNat = k := by
  rw [toNat_mul_of_nonneg hw hh] at hk
  have hwp : 0 < w.toNat := by
    rcases Nat.eq_zero_or_pos w.toNat with h0 | h0
    · rw [h0] at hk; omega
    · exact h0
  refine ⟨((k % w.toNat : Nat) : Int), ((k / w.toNat : Nat) : Int), by positivity, ?_, by positivity, ?_, ?_⟩
  · have := Nat.mod_lt k hwp
    omega
  · have : k / w.toNat < h.toNat := by
      rw [Nat.div_lt_iff_lt_mul hwp]
      calc k < w.toNat * h.toNat := hk
        _ = h.toNat * w.toNat := Nat.mul_comm _ _
    omega
  · have hcast : ((k / w.toNat : Nat) : Int) * w + ((k % w.toNat : Nat) : Int) =
        (((k / w.toNat) * w.toNat + k % w.toNat : Nat) : Int) := by
      push_cast
      have hw2 : ((w.toNat : Int)) = w := by omega
      rw [hw2]
    have hdm : k / w.toNat * w.toNat + k % w.toNat = k := Nat.div_add_mod' k w.toNat
    rw [hcast, hdm]
    omega

theorem countP_mono_pointwise :
    ∀ (l1 l2 : List Cell), l1.length = l2.length →
      (∀ k (h1 : k < l1.length) (h2 : k < l2.length),
        l1.get ⟨k, h1⟩ = Cell.ALIVE → l2.get ⟨k, h2⟩ = Cell.ALIVE) →
      l1.countP (fun c => decide (c = Cell.ALIVE)) ≤
        l2.countP (fun c => decide (c = Cell.ALIVE)) := by
  intro l1
  induction l1 with
  | nil => intro l2 _ _; exact Nat.zero_le _
  | cons a l1 ih =>
      intro l2 hlen hpt
      cases l2 with
      | nil => simp at hlen
      | cons b l2 =>
          simp only [List.countP_cons]
          have hrec := ih l2 (by simpa using hlen)
            (fun k h1 h2 hal => hpt (k + 1) (by simpa using h1) (by simpa using h2) hal)
          have hhead : (if decide (a = Cell.ALIVE) = true then 1 else 0) ≤
              (if decide (b = Cell.ALIVE) = true then 1 else 0) := by
            by_cases hA : a = Cell.ALIVE
            · have hb : b = Cell.ALIVE := by
                have h0 := hpt 0 (by simp) (by simp) (by simpa using hA)
                simpa using h0
              simp [hA, hb]
            · simp [hA]
          omega

/-! ### Neighbour-count machinery -/

theorem intRangeFrom_center (c : Int) : intRangeFrom (c - 1) (c + 2) = [c - 1, c, c + 1] := by
  have h3 : c + 2 - (c - 1) = 3 := by ring
  unfold intRangeFrom
  rw [h3]
  have hr : List.range (3 : Int).toNat = [0, 1, 2] := rfl
  rw [hr]
  simp only [List.map_cons, List.map_nil, Nat.cast_zero, Nat.cast_one, Nat.cast_ofNat, add_zero]
  rw [show c - 1 + 1 = c by ring, show c - 1 + 2 = c + 1 by ring]

theorem tmod_wrap {v d : Int} (hv : -1 ≤ v) (hd : 0 < d) : Int.tmod (v + d) d = v % d := by
  rw [Int.tmod_eq_emod (by omega) (by omega), show v + d = v + d * 1 by ring,
    Int.add_mul_emod_self_left]

theorem nbrOneC_self (g : Grid) (t : Bool) (x y : Int) : nbrOneC g t x y x y = 0 :=
  if_pos ⟨rfl, rfl⟩

theorem nbrOneC_ne {g : Grid} {t : Bool} {x y nx ny : Int} (h : ¬(nx = x ∧ ny = y)) :
    nbrOneC g t x y nx ny = nbrOne g t nx ny := if_neg h

theorem plain_body_ok (W : Grid) (x y nx ny acc : Int)
    (hlen : W.grid.length = (W.width * W.height).toNat) :
    (if ¬(nx = x ∧ ny = y) ∧ (nx < W.width ∧ nx > -1) ∧ (ny > -1 ∧ ny < W.height) then do
        let c ← W.get nx ny
        Except.ok (if c = Cell.ALIVE then acc + 1 else acc)
      else Except.ok acc) = Except.ok (acc + nbrOneC W false x y nx ny) := by
  by_cases hcen : nx = x ∧ ny = y
  · rw [if_neg (by tauto), nbrOneC, if_pos hcen, add_zero]
  · rw [nbrOneC, if_neg hcen]
    by_cases hb : (nx < W.width ∧ nx > -1) ∧ (ny > -1 ∧ ny < W.height)
    · rw [if_pos ⟨hcen, hb⟩,
        Grid.get_ok (by omega) (by omega) (by omega) (by omega) hlen]
      show Except.ok _ = _
      by_cases hc : cellAt W nx ny = Cell.ALIVE
      · rw [if_pos hc, nbrOne, if_neg (by simp),
          if_pos ⟨by omega, by omega, by omega, by omega, hc⟩]
      · rw [if_neg hc, nbrOne, if_neg (by simp),
          if_neg (fun hcon => hc hcon.2.2.2.2), add_zero]
    · rw [if_neg (by tauto)]
      have h0 : nbrOne W false nx ny = 0 := by
        rw [nbrOne, if_neg (by simp)]
        rw [if_neg (fun hcon => hb ⟨⟨hcon.2.1, by omega⟩, ⟨by omega, hcon.2.2.2.1⟩⟩)]
      rw [h0, add_zero]

theorem torus_body_ok (W : Grid) (x y nx ny acc : Int) (hW : 0 < W.width)
    (hH : 0 < W.height) (hlen : W.grid.length = (W.width * W.height).toNat)
    (hnx : x - 1 ≤ nx) (hny : y - 1 ≤ ny) (hx0 : 0 ≤ x) (hy0 : 0 ≤ y) :
    (if nx = x ∧ ny = y then Except.ok acc
     else do
       let c ← W.get (Int.tmod (nx + W.width) W.width) (Int.tmod (ny + W.height) W.height)
       Except.ok (if c = Cell.ALIVE then acc + 1 else acc)) =
      Except.ok (acc + nbrOneC W true x y nx ny) := by
  by_cases hcen : nx = x ∧ ny = y
  · rw [if_pos hcen, nbrOneC, if_pos hcen, add_zero]
  · rw [if_neg hcen, nbrOneC, if_neg hcen,
      tmod_wrap (by omega) hW, tmod_wrap (by omega) hH,
      Grid.get_ok (Int.emod_nonneg nx (by omega)) (Int.emod_lt_of_pos nx hW)
        (Int.emod_nonneg ny (by omega)) (Int.emod_lt_of_pos ny hH) hlen]
    show Except.ok _ = _
    rw [nbrOne, if_pos (rfl : (true : Bool) = true)]
    by_cases hc : cellAt W (nx % W.width) (ny % W.height) = Cell.ALIVE
    · rw [if_pos hc, if_pos hc]
    · rw [if_neg hc, if_neg hc, add_zero]

theorem count_neighbours_ok (w : World) (x y : Int) (t : Bool)
    (hW : 0 < w.world.width) (hH : 0 < w.world.height)
    (hlen : w.world.grid.length = (w.world.width * w.world.height).toNat)
    (hx0 : 0 ≤ x) (hx : x < w.world.width) (hy0 : 0 ≤ y) (hy : y < w.world.height) :
    w.count_neighbours x y t = Except.ok (nbrCount w.world t x y) := by
  have hrows := intRangeFrom_center y
  have hcols := intRangeFrom_center x
  cases t with
  | false =>
      unfold World.count_neighbours
      rw [if_neg Bool.false_ne_true, hrows, hcols]
      simp only [World.get_width, World.get_height, Grid.get_width, Grid.get_height]
      rw [foldlM_add_sum _
        (fun ny => (([x - 1, x, x + 1]).map (fun nx => nbrOneC w.world false x y nx ny)).sum)
        [y - 1, y, y + 1] ?rowbody 0]
      case rowbody =>
        intro acc ny _
        exact foldlM_add_sum _ (fun nx => nbrOneC w.world false x y nx ny) [x - 1, x, x + 1]
          (fun acc2 nx _ => plain_body_ok w.world x y nx ny acc2 hlen) acc
      simp only [List.map_cons, List.map_nil, List.sum_cons, List.sum_nil]
      have e1 := nbrOneC_self w.world false x y
      have e2 : ∀ nx ny : Int, ¬(nx = x ∧ ny = y) →
          nbrOneC w.world false x y nx ny = nbrOne w.world false nx ny :=
        fun nx ny h => nbrOneC_ne h
      rw [e1, e2 (x - 1) (y - 1) (by omega), e2 x (y - 1) (by omega),
        e2 (x + 1) (y - 1) (by omega), e2 (x - 1) y (by omega), e2 (x + 1) y (by omega),
        e2 (x - 1) (y + 1) (by omega), e2 x (y + 1) (by omega), e2 (x + 1) (y + 1) (by omega),
        nbrCount]
      congr 1
      omega
  | true =>
      unfold World.count_neighbours
      rw [if_pos rfl, hrows, hcols]
      simp only [World.get_width, World.get_height, Grid.get_width, Grid.get_height]
      rw [foldlM_add_sum _
        (fun ny => (([x - 1, x, x + 1]).map (fun nx => nbrOneC w.world true x y nx ny)).sum)
        [y - 1, y, y + 1] ?rowbody 0]
      case rowbody =>
        intro acc ny hmemy
        refine foldlM_add_sum _ (fun nx => nbrOneC w.world true x y nx ny) [x - 1, x, x + 1]
          (fun acc2 nx hmemx => ?_) acc
        have hny : y - 1 ≤ ny := by
          rw [List.mem_cons, List.mem_cons, List.mem_singleton] at hmemy
          omega
        have hnx : x - 1 ≤ nx := by
          rw [List.mem_cons, List.mem_cons, List.mem_singleton] at hmemx
          omega
        exact torus_body_ok w.world x y nx ny acc2 hW hH hlen hnx hny hx0 hy0
      simp only [List.map_cons, List.map_nil, List.sum_cons, List.sum_nil]
      have e1 := nbrOneC_self w.world true x y
      have e2 : ∀ nx ny : Int, ¬(nx = x ∧ ny = y) →
          nbrOneC w.world true x y nx ny = nbrOne w.world true nx ny :=
        fun nx ny h => nbrOneC_ne h
      rw [e1, e2 (x - 1) (y - 1) (by omega), e2 x (y - 1) (by omega),
        e2 (x + 1) (y - 1) (by omega), e2 (x - 1) y (by omega), e2 (x + 1) y (by omega),
        e2 (x - 1) (y + 1) (by omega), e2 x (y + 1) (by omega), e2 (x + 1) (y + 1) (by omega),
        nbrCount]
      congr 1
      omega

/-! ### Step machinery -/

theorem exceptBind_ok {α β : Type} (a : α) (k : α → Except CppErr β) :
    (Except.ok a >>= k) = k a := rfl

theorem foldCoords_ok {σ : Type} (P : σ → Prop) (rows cols : List Int)
    (f : σ → Int → Int → Except CppErr σ) (fp : σ → Int → Int → σ)
    (hbody : ∀ s a b, P s → a ∈ cols → b ∈ rows →
      f s a b = Except.ok (fp s a b) ∧ P (fp s a b)) :
    ∀ s, P s →
      foldCoords rows cols f s =
          Except.ok (rows.foldl (fun s2 y => cols.foldl (fun s3 x => fp s3 x y) s2) s) ∧
        P (rows.foldl (fun s2 y => cols.foldl (fun s3 x => fp s3 x y) s2) s) := by
  intro s hs
  exact foldlM_ok_of_body P _ _ rows
    (fun s2 b hs2 hb =>
      foldlM_ok_of_body P (fun s3 a => f s3 a b) (fun s3 a => fp s3 a b) cols
        (fun s3 a hs3 ha => hbody s3 a b hs3 ha hb) s2 hs2)
    s hs

theorem stepBody_ok (W : Grid) (t : Bool) (hW : 0 < W.width) (hH : 0 < W.height)
    (hlen : W.grid.length = (W.width * W.height).toNat)
    (hcells : ∀ c ∈ W.grid, c = Cell.DEAD ∨ c = Cell.ALIVE)
    (st : World) (x y : Int) (hP : PStep W st)
    (hx0 : 0 ≤ x) (hx : x < W.width) (hy0 : 0 ≤ y) (hy : y < W.height) :
    World.stepBody t st x y = Except.ok (stepPure t st x y) ∧
      PStep W (stepPure t st x y) := by
  obtain ⟨hw, hnw, hnh, hnl⟩ := hP
  have hnl2 : st.nextWorld.grid.length =
      (st.nextWorld.width * st.nextWorld.height).toNat := by
    rw [hnw, hnh]; exact hnl
  have hcn : st.count_neighbours x y t = Except.ok (nbrCount st.world t x y) :=
    count_neighbours_ok st x y t (by rw [hw]; exact hW) (by rw [hw]; exact hH)
      (by rw [hw]; exact hlen) hx0 (by rw [hw]; exact hx) hy0 (by rw [hw]; exact hy)
  have hget : st.world.get x y = Except.ok (cellAt st.world x y) :=
    Grid.get_ok hx0 (by rw [hw]; exact hx) hy0 (by rw [hw]; exact hy)
      (by rw [hw]; exact hlen)
  have hcellmem : cellAt st.world x y = Cell.DEAD ∨ cellAt st.world x y = Cell.ALIVE := by
    rw [hw]
    exact hcells _ (cellAt_mem hx0 hx hy0 hy hlen)
  have hsetOk : ∀ v : Cell,
      st.nextWorld.set x y v = Except.ok (writeCell st.nextWorld x y v) :=
    fun v => Grid.set_ok hx0 (by omega) hy0 (by omega) hnl2
  have hPw : ∀ v : Cell, PStep W (⟨st.world, writeCell st.nextWorld x y v⟩ : World) :=
    fun v => ⟨hw, by rw [writeCell_width]; exact hnw, by rw [writeCell_height]; exact hnh,
      by rw [writeCell_length]; exact hnl⟩
  unfold World.stepBody
  rw [hcn, exceptBind_ok, hget, exceptBind_ok]
  by_cases hc : cellAt st.world x y = Cell.ALIVE
  · rw [if_pos hc]
    have hstep : stepPure t st x y =
        ⟨st.world, writeCell st.nextWorld x y (conwayCell st.world t x y)⟩ := by
      rw [stepPure, if_neg]
      intro hcon
      rw [hc] at hcon
      exact absurd hcon.1 (by decide)
    by_cases h2 : nbrCount st.world t x y < 2
    · rw [if_pos h2, hsetOk Cell.DEAD, exceptBind_ok]
      have hcw : conwayCell st.world t x y = Cell.DEAD := by
        rw [conwayCell, if_pos hc, if_neg (by omega)]
      rw [hstep, hcw]
      exact ⟨rfl, hPw Cell.DEAD⟩
    · rw [if_neg h2]
      by_cases h3 : nbrCount st.world t x y = 2 ∨ nbrCount st.world t x y = 3
      · rw [if_pos h3, hsetOk Cell.ALIVE, exceptBind_ok]
        have hcw : conwayCell st.world t x y = Cell.ALIVE := by
          rw [conwayCell, if_pos hc, if_pos h3]
        rw [hstep, hcw]
        exact ⟨rfl, hPw Cell.ALIVE⟩
      · rw [if_neg h3, if_pos (by omega), hsetOk Cell.DEAD, exceptBind_ok]
        have hcw : conwayCell st.world t x y = Cell.DEAD := by
          rw [conwayCell, if_pos hc, if_neg h3]
        rw [hstep, hcw]
        exact ⟨rfl, hPw Cell.DEAD⟩
  · rw [if_neg hc]
    have hcd : cellAt st.world x y = Cell.DEAD := by
      rcases hcellmem with h | h
      · exact h
      · exact absurd h hc
    have hcommon :
        (if nbrCount st.world t x y = 3 then do
            let ng ← st.nextWorld.set x y Cell.ALIVE
            Except.ok (⟨st.world, ng⟩ : World)
          else Except.ok st) =
          Except.ok (stepPure t st x y) ∧ PStep W (stepPure t st x y) := by
      by_cases h3 : nbrCount st.world t x y = 3
      · rw [if_pos h3, hsetOk Cell.ALIVE, exceptBind_ok]
        have hstep : stepPure t st x y =
            ⟨st.world, writeCell st.nextWorld x y (conwayCell st.world t x y)⟩ := by
          rw [stepPure, if_neg (fun hcon => hcon.2 h3)]
        have hcw : conwayCell st.world t x y = Cell.ALIVE := by
          rw [conwayCell, if_neg hc, if_pos h3]
        rw [hstep, hcw]
        exact ⟨rfl, hPw Cell.ALIVE⟩
      · have hstep : stepPure t st x y = st := by
          rw [stepPure, if_pos ⟨hcd, h3⟩]
        rw [if_neg h3, hstep]
        exact ⟨rfl, hw, hnw, hnh, hnl⟩
    cases t with
    | true => rw [if_pos rfl, if_pos hcd]; exact hcommon
    | false => rw [if_neg Bool.false_ne_true]; exact hcommon

theorem stepPure_single (W : Grid) (t : Bool)
    (st : World) (x y : Int) (hP : PStep W st)
    (hx0 : 0 ≤ x) (hx : x < W.width) (hy0 : 0 ≤ y) (hy : y < W.height)
    (hInv : StepInv W t st y x) :
    PStep W (stepPure t st x y) ∧ StepInv W t (stepPure t st x y) y (x + 1) := by
  obtain ⟨hw, hnw, hnh, hnl⟩ := hP
  have hnl2 : st.nextWorld.grid.length =
      (st.nextWorld.width * st.nextWorld.height).toNat := by
    rw [hnw, hnh]; exact hnl
  by_cases hskip : cellAt st.world x y = Cell.DEAD ∧ nbrCount st.world t x y ≠ 3
  · have hskipW : cellAt W x y = Cell.DEAD ∧ nbrCount W t x y ≠ 3 := by
      rw [← hw]; exact hskip
    rw [stepPure, if_pos hskip]
    refine ⟨⟨hw, hnw, hnh, hnl⟩, ?_⟩
    intro px py hpx0 hpx hpy0 hpy
    obtain ⟨hproc, hunproc⟩ := hInv px py hpx0 hpx hpy0 hpy
    constructor
    · intro hcase
      by_cases hold : py < y ∨ (py = y ∧ px < x)
      · exact hproc hold
      · have hxy : px = x ∧ py = y := by omega
        obtain ⟨hex, hey⟩ := hxy
        subst hex
        subst hey
        have h1 : cellAt st.nextWorld px py = cellAt W px py := hunproc (by omega)
        have h3 : conwayCell W t px py = Cell.DEAD := by
          rw [conwayCell, if_neg (by rw [hskipW.1]; decide), if_neg hskipW.2]
        rw [h1, hskipW.1, h3]
    · intro hcase
      exact hunproc (by omega)
  · rw [stepPure, if_neg hskip]
    have hvW : conwayCell st.world t x y = conwayCell W t x y := by rw [hw]
    refine ⟨⟨hw, by rw [writeCell_width]; exact hnw, by rw [writeCell_height]; exact hnh,
      by rw [writeCell_length]; exact hnl⟩, ?_⟩
    intro px py hpx0 hpx hpy0 hpy
    obtain ⟨hproc, hunproc⟩ := hInv px py hpx0 hpx hpy0 hpy
    have hbx : x < st.nextWorld.width := by omega
    have hby : y < st.nextWorld.height := by omega
    have hbpx : px < st.nextWorld.width := by omega
    have hbpy : py < st.nextWorld.height := by omega
    constructor
    · intro hcase
      by_cases hxy : px = x ∧ py = y
      · obtain ⟨hex, hey⟩ := hxy
        subst hex
        subst hey
        show cellAt (writeCell st.nextWorld px py (conwayCell st.world t px py)) px py = _
        rw [cellAt_writeCell_self hpx0 hbpx hpy0 hbpy hnl2, hvW]
      · show cellAt (writeCell st.nextWorld x y (conwayCell st.world t x y)) px py = _
        rw [cellAt_writeCell_ne hx0 hbx hpx0 hbpx hy0 hpy0 hxy]
        exact hproc (by omega)
    · intro hcase
      have hnxy : ¬(px = x ∧ py = y) := by omega
      show cellAt (writeCell st.nextWorld x y (conwayCell st.world t x y)) px py = _
      rw [cellAt_writeCell_ne hx0 hbx hpx0 hbpx hy0 hpy0 hnxy]
      exact hunproc (by omega)

theorem StepInv_rowShift {W : Grid} {t : Bool} {st : World} {y : Int}
    (hInv : StepInv W t st y W.width) : StepInv W t st (y + 1) 0 := by
  intro px py h1 h2 h3 h4
  obtain ⟨hp, hu⟩ := hInv px py h1 h2 h3 h4
  exact ⟨fun hc => hp (by omega), fun hc => hu (by omega)⟩

theorem stepRow_fold (W : Grid) (t : Bool) (y : Int) (hy0 : 0 ≤ y) (hy : y < W.height) :
    ∀ k : Nat, (k : Int) ≤ W.width → ∀ st, PStep W st → StepInv W t st y 0 →
      PStep W ((List.range k).foldl (fun s (i : Nat) => stepPure t s (i : Int) y) st) ∧
        StepInv W t ((List.range k).foldl (fun s (i : Nat) => stepPure t s (i : Int) y) st) y
          (k : Int) := by
  intro k
  induction k with
  | zero =>
      intro _ st hP hI
      exact ⟨hP, hI⟩
  | succ k ih =>
      intro hk st hP hI
      rw [List.range_succ, List.foldl_append, List.foldl_cons, List.foldl_nil]
      obtain ⟨hP2, hI2⟩ := ih (by omega) st hP hI
      have hsingle := stepPure_single W t _ (k : Int) y hP2 (by positivity) (by omega)
        hy0 hy hI2
      refine ⟨hsingle.1, ?_⟩
      have hcast : ((k + 1 : Nat) : Int) = (k : Int) + 1 := by push_cast; ring
      rw [hcast]
      exact hsingle.2

theorem stepAll_fold (W : Grid) (t : Bool) (hWnn : 0 ≤ W.width) :
    ∀ j : Nat, (j : Int) ≤ W.height → ∀ st, PStep W st → StepInv W t st 0 0 →
      PStep W ((List.range j).foldl
          (fun s (jj : Nat) => (List.range W.width.toNat).foldl
            (fun s2 (i : Nat) => stepPure t s2 (i : Int) (jj : Int)) s) st) ∧
        StepInv W t ((List.range j).foldl
          (fun s (jj : Nat) => (List.range W.width.toNat).foldl
            (fun s2 (i : Nat) => stepPure t s2 (i : Int) (jj : Int)) s) st) (j : Int) 0 := by
  intro j
  induction j with
  | zero =>
      intro _ st hP hI
      exact ⟨hP, hI⟩
  | succ j ih =>
      intro hj st hP hI
      rw [List.range_succ, List.foldl_append, List.foldl_cons, List.foldl_nil]
      obtain ⟨hP2, hI2⟩ := ih (by omega) st hP hI
      have hrow := stepRow_fold W t (j : Int) (by positivity) (by omega) W.width.toNat
        (by omega) _ hP2 hI2
      have hbeq : ((W.width.toNat : Nat) : Int) = W.width := by omega
      rw [hbeq] at hrow
      have hshift := StepInv_rowShift hrow.2
      have hcast : ((j + 1 : Nat) : Int) = (j : Int) + 1 := by push_cast; ring
      rw [hcast]
      exact ⟨hrow.1, hshift⟩

/-! ## C1 — step computes Conway's rule -/

/-- C1 (amended): on every world whose next buffer equals its current grid
— as holds for every world reached through constructors, `step` and
`advance` alone, since constructors copy the initial grid into both buffers
and `step` ends with the copy assignment `world = nextWorld` — with
positive dimensions and a well-formed current grid, `step(toroidal)`
succeeds and the resulting current grid holds, at every in-bounds
coordinate, exactly Conway's rule applied to the previous current grid
(with the claim's neighbour count: out-of-bounds neighbours contribute 0
when non-toroidal, and wrap per axis by modulo when toroidal). -/
theorem C1_step_conway (w : World) (t : Bool)
    (heq : w.nextWorld = w.world)
    (hW : 0 < w.world.width) (hH : 0 < w.world.height)
    (hlen : w.world.grid.length = (w.world.width * w.world.height).toNat)
    (hcells : ∀ c ∈ w.world.grid, c = Cell.DEAD ∨ c = Cell.ALIVE) :
    ∃ w2, w.step t = Except.ok w2 ∧ w2.world.width = w.world.width ∧
      w2.world.height = w.world.height ∧
      ∀ x y : Int, 0 ≤ x → x < w.world.width → 0 ≤ y → y < w.world.height →
        w2.world.get x y = Except.ok (conwayCell w.world t x y) := by
  have hP0 : PStep w.world w := ⟨rfl, by rw [heq], by rw [heq], by rw [heq]; exact hlen⟩
  have hI0 : StepInv w.world t w 0 0 := by
    intro px py h1 h2 h3 h4
    exact ⟨fun hc => absurd hc (by omega), fun _ => by rw [heq]⟩
  have hfold := foldCoords_ok (PStep w.world) (intRange w.world.get_height)
    (intRange w.world.get_width) (World.stepBody t) (stepPure t) ?hbody w hP0
  case hbody =>
    intro s a b hs ha hb
    have hA := mem_intRange ha
    have hB := mem_intRange hb
    have hwid : w.world.get_width = w.world.width := rfl
    have hhei : w.world.get_height = w.world.height := rfl
    rw [hwid] at hA
    rw [hhei] at hB
    exact stepBody_ok w.world t hW hH hlen hcells s a b hs hA.1 hA.2 hB.1 hB.2
  have hnat : (intRange w.world.get_height).foldl
      (fun s2 y => (intRange w.world.get_width).foldl (fun s3 x => stepPure t s3 x y) s2) w =
      (List.range w.world.height.toNat).foldl
        (fun s (jj : Nat) => (List.range w.world.width.toNat).foldl
          (fun s2 (i : Nat) => stepPure t s2 (i : Int) (jj : Int)) s) w := by
    simp only [intRange, List.foldl_map]
    rfl
  obtain ⟨hfeq, hfP⟩ := hfold
  rw [hnat] at hfeq hfP
  have hall := stepAll_fold w.world t (by omega) w.world.height.toNat (by omega) w hP0 hI0
  set F := (List.range w.world.height.toNat).foldl
    (fun s (jj : Nat) => (List.range w.world.width.toNat).foldl
      (fun s2 (i : Nat) => stepPure t s2 (i : Int) (jj : Int)) s) w with hF
  obtain ⟨hFP, hFI⟩ := hall
  obtain ⟨hFw, hFnw, hFnh, hFnl⟩ := hFP
  refine ⟨⟨F.nextWorld, F.nextWorld⟩, ?_, hFnw, hFnh, ?_⟩
  · unfold World.step
    rw [hfeq, exceptBind_ok]
  · intro x y hx0 hx hy0 hy
    have hlen2 : F.nextWorld.grid.length =
        (F.nextWorld.width * F.nextWorld.height).toNat := by
      rw [hFnw, hFnh]; exact hFnl
    show F.nextWorld.get x y = _
    have hget : F.nextWorld.get x y = Except.ok (cellAt F.nextWorld x y) :=
      Grid.get_ok hx0 (by omega) hy0 (by omega) hlen2
    rw [hget]
    have hpt := (hFI x y hx0 hx hy0 hy).1 (by omega)
    rw [hpt]

/-- Witness for C1 at a concrete world: a 3x3 vertical blinker, stepped
non-toroidally. -/
theorem C1_step_conway_witness :
    (World.ofGrid (⟨3, 3, [Cell.DEAD, Cell.ALIVE, Cell.DEAD, Cell.DEAD, Cell.ALIVE,
        Cell.DEAD, Cell.DEAD, Cell.ALIVE, Cell.DEAD]⟩ : Grid)).nextWorld =
        (World.ofGrid (⟨3, 3, [Cell.DEAD, Cell.ALIVE, Cell.DEAD, Cell.DEAD, Cell.ALIVE,
          Cell.DEAD, Cell.DEAD, Cell.ALIVE, Cell.DEAD]⟩ : Grid)).world ∧
      (0 : Int) < 3 ∧ (0 : Int) < 3 ∧
      (∃ w2, (World.ofGrid (⟨3, 3, [Cell.DEAD, Cell.ALIVE, Cell.DEAD, Cell.DEAD, Cell.ALIVE,
          Cell.DEAD, Cell.DEAD, Cell.ALIVE, Cell.DEAD]⟩ : Grid)).step false = Except.ok w2 ∧
        w2.world.width = (World.ofGrid (⟨3, 3, [Cell.DEAD, Cell.ALIVE, Cell.DEAD, Cell.DEAD,
          Cell.ALIVE, Cell.DEAD, Cell.DEAD, Cell.ALIVE, Cell.DEAD]⟩ : Grid)).world.width ∧
        w2.world.height = (World.ofGrid (⟨3, 3, [Cell.DEAD, Cell.ALIVE, Cell.DEAD, Cell.DEAD,
          Cell.ALIVE, Cell.DEAD, Cell.DEAD, Cell.ALIVE, Cell.DEAD]⟩ : Grid)).world.height ∧
        ∀ x y : Int, 0 ≤ x →
          x < (World.ofGrid (⟨3, 3, [Cell.DEAD, Cell.ALIVE, Cell.DEAD, Cell.DEAD, Cell.ALIVE,
            Cell.DEAD, Cell.DEAD, Cell.ALIVE, Cell.DEAD]⟩ : Grid)).world.width → 0 ≤ y →
          y < (World.ofGrid (⟨3, 3, [Cell.DEAD, Cell.ALIVE, Cell.DEAD, Cell.DEAD, Cell.ALIVE,
            Cell.DEAD, Cell.DEAD, Cell.ALIVE, Cell.DEAD]⟩ : Grid)).world.height →
          w2.world.get x y = Except.ok (conwayCell (World.ofGrid (⟨3, 3, [Cell.DEAD,
            Cell.ALIVE, Cell.DEAD, Cell.DEAD, Cell.ALIVE, Cell.DEAD, Cell.DEAD, Cell.ALIVE,
            Cell.DEAD]⟩ : Grid)).world false x y)) :=
  ⟨rfl, by decide, by decide,
    C1_step_conway _ false rfl (by decide) (by decide) (by decide) (by decide)⟩

/-- Counterexample for C1 as stated: the world `w1bad`, reached by
constructing a `World` from the `2 x 1` all-alive grid and then calling
`resize(1, 2)`, has positive dimensions, yet `step(false)` faults (the
cell write at `(0, 1)` goes through the stale `2 x 1` next buffer, whose
off-by-one bound check admits `y = 1` and whose row-major index 2 is past
the end of its 2-cell vector) — so no post-step grid satisfying Conway's
rule exists, refuting the claim's universal statement over reachable
worlds. -/
theorem C1_counterexample : ¬ C1_claim_statement := by
  intro hclaim
  have h1 : Reachable (World.ofGrid (⟨2, 1, [Cell.ALIVE, Cell.ALIVE]⟩ : Grid)) :=
    Reachable.ofGrid _ (by decide)
  have hreach : Reachable w1bad :=
    Reachable.resize _ w1bad 1 2 h1 (by decide)
  obtain ⟨w2, hok, _⟩ := hclaim w1bad hreach (by decide) (by decide) false
  have hbad : w1bad.step false = Except.error CppErr.ub := by decide
  rw [hbad] at hok
  exact Except.noConfusion hok

/-! ## C2 — World invariant: equal dimensions of the two buffers -/

/-- C2: the claimed invariant — both internal grids have identical width
and height after every public operation, in particular `World::resize` —
fails on the code: after `World(4,4).resize(3,2)` the current grid is
`3 x 2` while the next grid still records `4 x 4`, because
`World::resize` resizes only `nextWorld`'s raw vector and never updates its
`width`/`height` fields. -/
theorem C2_world_resize_dims_mismatch :
    ((World.ofDims 4 4).resize 3 2).map
        (fun w => (w.world.width, w.world.height, w.nextWorld.width, w.nextWorld.height)) =
      Except.ok ((3 : Int), (2 : Int), (4 : Int), (4 : Int)) := by
  decide

/-! ## C3 — Grid::resize contract -/

/-- C3: the claim — `resize(new_width, new_height)` always succeeds,
yields the new dimensions and preserves the overlapping
`min(old_w,new_w) x min(old_h,new_h)` rectangle, identically for
grown/shrunk/mixed axes — fails on the code: resizing an (all-dead) `3 x 1`
grid to `1 x 3` throws.  The "get larger" loop (taken because the totals
tie) iterates `x` over the old width `3` and calls `set(2, 0, ...)` while
the bound check compares `x = 2` against the new width `1`, throwing an
uncaught exception instead of completing the documented content-preserving
resize. -/
theorem C3_grid_resize_mixed_throws :
    (Grid.ofDims 3 1).resize 1 3 = Except.error CppErr.thrown := by
  decide

/-! ## C4 — Grid::get / Grid::set bounds contract -/

/-- C4: the claim — `get`/`set` fail with OutOfBounds exactly when
`0 ≤ x < width` or `0 ≤ y < height` is violated, and a failing call mutates
nothing — fails on the code: the checks use `x > width` (off by one), so on
a `2 x 2` grid the invalid coordinate `(2, 0)` is accepted: `get(2, 0)`
returns the cell stored at `(0, 1)` (row-major index 2) instead of
failing, and `set(2, 0, ALIVE)` mutates that cell instead of failing. -/
theorem C4_get_set_off_by_one :
    (⟨2, 2, [Cell.DEAD, Cell.DEAD, Cell.ALIVE, Cell.DEAD]⟩ : Grid).get 2 0 =
        Except.ok Cell.ALIVE ∧
      (Grid.ofDims 2 2).set 2 0 Cell.ALIVE =
        Except.ok (⟨2, 2, [Cell.DEAD, Cell.DEAD, Cell.ALIVE, Cell.DEAD]⟩ : Grid) := by
  decide

/-! ## C5 — Grid length invariant -/

/-- C5: the claimed invariant `cells.length = width * height` after every
operation that produces a grid fails on the code: after
`World(1,1).resize(2,1)` the next-state grid's vector has been resized to
2 cells while its recorded dimensions remain `1 x 1`, so the stated
equality evaluates to `false` on that grid. -/
theorem C5_world_resize_breaks_length_invariant :
    ((World.ofDims 1 1).resize 2 1).map
        (fun w => decide (w.nextWorld.grid.length = w.nextWorld.get_total_cells.toNat)) =
      Except.ok false := by
  decide

/-! ## C6 — Grid::crop contract -/

/-- C6: the claim — `crop(x0, y0, x1, y1)` fails with OutOfRange exactly
when the window is not contained in the source or has negative size —
fails on the code, whose only check is
`(x1-x0)*(y1-y0) > total || (x1-x0)*(y1-y0) < 0`.  On a `2 x 2` grid,
`crop(2, 2, 0, 0)` has `x1 < x0` and `y1 < y0` (the product of the two
negative extents is positive and small), yet the call succeeds and returns
a broken `-2 x -2` grid with no cells; and `crop(3, 0, 5, 1)` on a `4 x 4`
grid whose cell `(3, 0)` is alive is not contained in the source, yet
succeeds and silently returns a `2 x 1` grid whose second cell was read
from `(0, 1)` by row-major wrap-around. -/
theorem C6_crop_wrong_validation :
    (Grid.ofDims 2 2).crop 2 2 0 0 = Except.ok (⟨-2, -2, []⟩ : Grid) ∧
      ((Grid.ofDims 4 4).set 3 0 Cell.ALIVE >>= fun g => g.crop 3 0 5 1) =
        Except.ok (⟨2, 1, [Cell.ALIVE, Cell.DEAD]⟩ : Grid) := by
  decide

/-! ## C7 — Grid::merge -/

theorem cellAt_eq_get {g : Grid} {x y : Int} {k : Nat} (hk : (y * g.width + x).toNat = k)
    (hlt : k < g.grid.length) : cellAt g x y = g.grid.get ⟨k, hlt⟩ := by
  subst hk
  rw [cellAt, List.getD_eq_getElem g.grid Cell.DEAD hlt]
  rfl

theorem mergeBody_ok (g0 other : Grid) (x0 y0 : Int) (ao : Bool)
    (hg0len : g0.grid.length = (g0.width * g0.height).toNat)
    (hx0 : 0 ≤ x0) (hy0 : 0 ≤ y0)
    (hfx : x0 + other.width ≤ g0.width) (hfy : y0 + other.height ≤ g0.height)
    (holen : other.grid.length = (other.width * other.height).toNat)
    (hocells : ∀ c ∈ other.grid, c = Cell.DEAD ∨ c = Cell.ALIVE)
    (st : Grid) (x y : Int) (hP : PMerge g0 st)
    (hxa : x0 ≤ x) (hxb : x < x0 + other.width) (hya : y0 ≤ y)
    (hyb : y < y0 + other.height) :
    Grid.mergeBody other x0 y0 ao st x y =
        Except.ok (mergePure other x0 y0 ao st x y) ∧
      PMerge g0 (mergePure other x0 y0 ao st x y) := by
  obtain ⟨hpw, hph, hpl, hpc⟩ := hP
  have hstlen : st.grid.length = (st.width * st.height).toNat := by
    rw [hpw, hph, hpl, hg0len]
  have hgetO : other.get (x - x0) (y - y0) =
      Except.ok (cellAt other (x - x0) (y - y0)) :=
    Grid.get_ok (by omega) (by omega) (by omega) (by omega) holen
  have hgetD : st.get x y = Except.ok (cellAt st x y) :=
    Grid.get_ok (by omega) (by omega) (by omega) (by omega) hstlen
  have hoMem : cellAt other (x - x0) (y - y0) = Cell.DEAD ∨
      cellAt other (x - x0) (y - y0) = Cell.ALIVE :=
    hocells _ (cellAt_mem (by omega) (by omega) (by omega) (by omega) holen)
  have hsetOk : ∀ v : Cell, st.set x y v = Except.ok (writeCell st x y v) :=
    fun v => Grid.set_ok (by omega) (by omega) (by omega) (by omega) hstlen
  have hPw : ∀ v : Cell, v = Cell.DEAD ∨ v = Cell.ALIVE →
      PMerge g0 (writeCell st x y v) := by
    intro v hv
    refine ⟨by rw [writeCell_width]; exact hpw, by rw [writeCell_height]; exact hph,
      by rw [writeCell_length]; exact hpl, ?_⟩
    intro c hc
    rcases List.mem_or_eq_of_mem_set hc with h | h
    · exact hpc c h
    · rw [h]; exact hv
  unfold Grid.mergeBody
  rw [if_neg (by simp only [Grid.get_height, Grid.get_width]; omega)]
  cases ao with
  | true =>
      rw [if_pos rfl, hgetO, exceptBind_ok]
      by_cases hoA : cellAt other (x - x0) (y - y0) = Cell.ALIVE
      · rw [if_pos hoA, hsetOk Cell.ALIVE]
        have hmv : mergePure other x0 y0 true st x y = writeCell st x y Cell.ALIVE := by
          rw [mergePure, if_pos rfl, if_pos (Or.inr hoA)]
        rw [hmv]
        exact ⟨rfl, hPw Cell.ALIVE (Or.inr rfl)⟩
      · rw [if_neg hoA, hgetD, exceptBind_ok]
        by_cases hdA : cellAt st x y = Cell.ALIVE
        · rw [if_pos hdA, hsetOk Cell.ALIVE]
          have hmv : mergePure other x0 y0 true st x y = writeCell st x y Cell.ALIVE := by
            rw [mergePure, if_pos rfl, if_pos (Or.inl hdA)]
          rw [hmv]
          exact ⟨rfl, hPw Cell.ALIVE (Or.inr rfl)⟩
        · have hoD : cellAt other (x - x0) (y - y0) = Cell.DEAD := by
            rcases hoMem with h | h
            · exact h
            · exact absurd h hoA
          rw [if_neg hdA, exceptBind_ok, hsetOk _]
          have hmv : mergePure other x0 y0 true st x y =
              writeCell st x y (cellAt other (x - x0) (y - y0)) := by
            rw [mergePure, if_pos rfl, if_neg (by tauto), hoD]
          rw [hmv]
          exact ⟨rfl, hPw _ (Or.inl hoD)⟩
  | false =>
      rw [if_neg Bool.false_ne_true, hgetO, exceptBind_ok, hsetOk _]
      have hmv : mergePure other x0 y0 false st x y =
          writeCell st x y (cellAt other (x - x0) (y - y0)) := by
        rw [mergePure, if_neg Bool.false_ne_true]
      rw [hmv]
      exact ⟨rfl, hPw _ hoMem⟩

theorem mergePure_single (g0 other : Grid) (x0 y0 : Int) (ao : Bool)
    (hg0len : g0.grid.length = (g0.width * g0.height).toNat)
    (hfx : x0 + other.width ≤ g0.width) (hfy : y0 + other.height ≤ g0.height)
    (holen : other.grid.length = (other.width * other.height).toNat)
    (hocells : ∀ c ∈ other.grid, c = Cell.DEAD ∨ c = Cell.ALIVE)
    (st : Grid) (x y : Int) (hP : PMerge g0 st)
    (hxa : x0 ≤ x) (hxb : x < x0 + other.width) (hya : y0 ≤ y)
    (hyb : y < y0 + other.height) (hx0 : 0 ≤ x0) (hy0 : 0 ≤ y0)
    (hInv : MergeInv g0 other x0 y0 ao st y x) :
    PMerge g0 (mergePure other x0 y0 ao st x y) ∧
      MergeInv g0 other x0 y0 ao (mergePure other x0 y0 ao st x y) y (x + 1) := by
  obtain ⟨hpw, hph, hpl, hpc⟩ := hP
  have hstlen : st.grid.length = (st.width * st.height).toNat := by
    rw [hpw, hph, hpl, hg0len]
  have hbx : x < st.width := by omega
  have hby : y < st.height := by omega
  have hdorig : cellAt st x y = cellAt g0 x y :=
    (hInv x y (by omega) (by omega) (by omega) (by omega)).2 (by omega)
  have hval : mergePure other x0 y0 ao st x y =
      writeCell st x y (mergedVal g0 other x0 y0 ao x y) := by
    cases ao with
    | true => rw [mergePure, if_pos rfl, mergedVal, if_pos rfl, hdorig]
    | false => rw [mergePure, if_neg Bool.false_ne_true, mergedVal,
        if_neg Bool.false_ne_true]
  rw [hval]
  have hPnew : PMerge g0 (writeCell st x y (mergedVal g0 other x0 y0 ao x y)) := by
    refine ⟨by rw [writeCell_width]; exact hpw, by rw [writeCell_height]; exact hph,
      by rw [writeCell_length]; exact hpl, ?_⟩
    intro c hc
    rcases List.mem_or_eq_of_mem_set hc with h | h
    · exact hpc c h
    · rw [h, mergedVal]
      cases ao with
      | true =>
          rw [if_pos rfl]
          by_cases hcnd : cellAt g0 x y = Cell.ALIVE ∨
              cellAt other (x - x0) (y - y0) = Cell.ALIVE
          · rw [if_pos hcnd]; exact Or.inr rfl
          · rw [if_neg hcnd]; exact Or.inl rfl
      | false =>
          rw [if_neg Bool.false_ne_true]
          exact hocells _ (cellAt_mem (by omega) (by omega) (by omega) (by omega) holen)
  refine ⟨hPnew, ?_⟩
  intro px py hpx0 hpx hpy0 hpy
  obtain ⟨hproc, hunproc⟩ := hInv px py hpx0 hpx hpy0 hpy
  have hbpx : px < st.width := by omega
  have hbpy : py < st.height := by omega
  constructor
  · intro hcase
    by_cases hxy : px = x ∧ py = y
    · obtain ⟨hex, hey⟩ := hxy
      subst hex
      subst hey
      rw [cellAt_writeCell_self hpx0 hbpx hpy0 hbpy hstlen]
    · rw [cellAt_writeCell_ne (by omega) hbx hpx0 hbpx (by omega) hpy0 hxy]
      exact hproc (by omega)
  · intro hcase
    have hnxy : ¬(px = x ∧ py = y) := by omega
    rw [cellAt_writeCell_ne (by omega) hbx hpx0 hbpx (by omega) hpy0 hnxy]
    exact hunproc (by omega)

theorem MergeInv_rowShift {g0 other : Grid} {x0 y0 : Int} {ao : Bool} {st : Grid}
    {y : Int} (hInv : MergeInv g0 other x0 y0 ao st y (x0 + other.width)) :
    MergeInv g0 other x0 y0 ao st (y + 1) x0 := by
  intro px py h1 h2 h3 h4
  obtain ⟨hp, hu⟩ := hInv px py h1 h2 h3 h4
  exact ⟨fun hc => hp (by omega), fun hc => hu (by omega)⟩

theorem mergeRow_fold (g0 other : Grid) (x0 y0 : Int) (ao : Bool)
    (hg0len : g0.grid.length = (g0.width * g0.height).toNat)
    (hfx : x0 + other.width ≤ g0.width) (hfy : y0 + other.height ≤ g0.height)
    (holen : other.grid.length = (other.width * other.height).toNat)
    (hocells : ∀ c ∈ other.grid, c = Cell.DEAD ∨ c = Cell.ALIVE)
    (hx0 : 0 ≤ x0) (hy0 : 0 ≤ y0)
    (y : Int) (hya : y0 ≤ y) (hyb : y < y0 + other.height) :
    ∀ k : Nat, (k : Int) ≤ other.width → ∀ st, PMerge g0 st →
      MergeInv g0 other x0 y0 ao st y x0 →
      PMerge g0 ((List.range k).foldl
          (fun s (i : Nat) => mergePure other x0 y0 ao s (x0 + (i : Int)) y) st) ∧
        MergeInv g0 other x0 y0 ao ((List.range k).foldl
          (fun s (i : Nat) => mergePure other x0 y0 ao s (x0 + (i : Int)) y) st) y
          (x0 + (k : Int)) := by
  intro k
  induction k with
  | zero =>
      intro _ st hP hI
      have h0 : x0 + ((0 : Nat) : Int) = x0 := by simp
      rw [h0]
      exact ⟨hP, hI⟩
  | succ k ih =>
      intro hk st hP hI
      rw [List.range_succ, List.foldl_append, List.foldl_cons, List.foldl_nil]
      obtain ⟨hP2, hI2⟩ := ih (by omega) st hP hI
      have hsingle := mergePure_single g0 other x0 y0 ao hg0len hfx hfy holen hocells _
        (x0 + (k : Int)) y hP2 (by omega) (by omega) hya hyb hx0 hy0 hI2
      refine ⟨hsingle.1, ?_⟩
      have hcast : x0 + ((k + 1 : Nat) : Int) = (x0 + (k : Int)) + 1 := by push_cast; ring
      rw [hcast]
      exact hsingle.2

theorem mergeAll_fold (g0 other : Grid) (x0 y0 : Int) (ao : Bool)
    (hg0len : g0.grid.length = (g0.width * g0.height).toNat)
    (hfx : x0 + other.width ≤ g0.width) (hfy : y0 + other.height ≤ g0.height)
    (holen : other.grid.length = (other.width * other.height).toNat)
    (hocells : ∀ c ∈ other.grid, c = Cell.DEAD ∨ c = Cell.ALIVE)
    (hx0 : 0 ≤ x0) (hy0 : 0 ≤ y0) (hownn : 0 ≤ other.width) :
    ∀ j : Nat, (j : Int) ≤ other.height → ∀ st, PMerge g0 st →
      MergeInv g0 other x0 y0 ao st y0 x0 →
      PMerge g0 ((List.range j).foldl
          (fun s (jj : Nat) => (List.range other.width.toNat).foldl
            (fun s2 (i : Nat) => mergePure other x0 y0 ao s2 (x0 + (i : Int))
              (y0 + (jj : Int))) s) st) ∧
        MergeInv g0 other x0 y0 ao ((List.range j).foldl
          (fun s (jj : Nat) => (List.range other.width.toNat).foldl
            (fun s2 (i : Nat) => mergePure other x0 y0 ao s2 (x0 + (i : Int))
              (y0 + (jj : Int))) s) st) (y0 + (j : Int)) x0 := by
  intro j
  induction j with
  | zero =>
      intro _ st hP hI
      have h0 : y0 + ((0 : Nat) : Int) = y0 := by simp
      rw [h0]
      exact ⟨hP, hI⟩
  | succ j ih =>
      intro hj st hP hI
      rw [List.range_succ, List.foldl_append, List.foldl_cons, List.foldl_nil]
      obtain ⟨hP2, hI2⟩ := ih (by omega) st hP hI
      have hrow := mergeRow_fold g0 other x0 y0 ao hg0len hfx hfy holen hocells hx0 hy0
        (y0 + (j : Int)) (by omega) (by omega) other.width.toNat (by omega) _ hP2 hI2
      have hbeq : x0 + ((other.width.toNat : Nat) : Int) = x0 + other.width := by omega
      rw [hbeq] at hrow
      have hshift := MergeInv_rowShift hrow.2
      have hcast : y0 + ((j + 1 : Nat) : Int) = (y0 + (j : Int)) + 1 := by push_cast; ring
      rw [hcast]
      exact ⟨hrow.1, hshift⟩

theorem merge_characterize (g other : Grid) (x0 y0 : Int) (ao : Bool)
    (hg : g.wf) (ho : other.wf) (hx0 : 0 ≤ x0) (hy0 : 0 ≤ y0)
    (hfx : x0 + other.width ≤ g.width) (hfy : y0 + other.height ≤ g.height) :
    ∃ g2, g.merge other x0 y0 ao = Except.ok g2 ∧ g2.width = g.width ∧
      g2.height = g.height ∧ g2.grid.length = g.grid.length ∧
      (∀ c ∈ g2.grid, c = Cell.DEAD ∨ c = Cell.ALIVE) ∧
      (∀ x y : Int, x0 ≤ x → x < x0 + other.width → y0 ≤ y → y < y0 + other.height →
        cellAt g2 x y = mergedVal g other x0 y0 ao x y) ∧
      (∀ x y : Int, 0 ≤ x → x < g.width → 0 ≤ y → y < g.height →
        ¬(x0 ≤ x ∧ x < x0 + other.width ∧ y0 ≤ y ∧ y < y0 + other.height) →
        cellAt g2 x y = cellAt g x y) := by
  obtain ⟨hgw, hgh, hglen, hgc⟩ := hg
  obtain ⟨how, hoh, holen, hoc⟩ := ho
  have hP0 : PMerge g g := ⟨rfl, rfl, rfl, hgc⟩
  have hI0 : MergeInv g other x0 y0 ao g y0 x0 := by
    intro px py h1 h2 h3 h4
    exact ⟨fun hc => absurd hc (by omega), fun _ => rfl⟩
  have hfold := foldCoords_ok (PMerge g) (intRangeFrom y0 (other.get_height + y0))
    (intRangeFrom x0 (other.get_width + x0)) (Grid.mergeBody other x0 y0 ao)
    (mergePure other x0 y0 ao) ?hbody g hP0
  case hbody =>
    intro s a b hs ha hb
    have hA := mem_intRangeFrom ha
    have hB := mem_intRangeFrom hb
    have e1 : other.get_width = other.width := rfl
    have e2 : other.get_height = other.height := rfl
    rw [e1] at hA
    rw [e2] at hB
    exact mergeBody_ok g other x0 y0 ao hglen hx0 hy0 hfx hfy holen hoc s a b hs
      hA.1 (by omega) hB.1 (by omega)
  obtain ⟨hfeq, hfP⟩ := hfold
  have hnat : (intRangeFrom y0 (other.get_height + y0)).foldl
      (fun s2 y => (intRangeFrom x0 (other.get_width + x0)).foldl
        (fun s3 x => mergePure other x0 y0 ao s3 x y) s2) g =
      (List.range other.height.toNat).foldl
        (fun s (jj : Nat) => (List.range other.width.toNat).foldl
          (fun s2 (i : Nat) => mergePure other x0 y0 ao s2 (x0 + (i : Int))
            (y0 + (jj : Int))) s) g := by
    have e1 : other.get_height + y0 - y0 = other.height := by
      show other.height + y0 - y0 = other.height
      ring
    have e2 : other.get_width + x0 - x0 = other.width := by
      show other.width + x0 - x0 = other.width
      ring
    simp only [intRangeFrom, e1, e2, List.foldl_map]
  rw [hnat] at hfeq hfP
  have hall := mergeAll_fold g other x0 y0 ao hglen hfx hfy holen hoc hx0 hy0 how
    other.height.toNat (by omega) g hP0 hI0
  obtain ⟨hFP, hFI⟩ := hall
  have hcast : y0 + ((other.height.toNat : Nat) : Int) = y0 + other.height := by omega
  rw [hcast] at hFI
  obtain ⟨hFw, hFh, hFl, hFc⟩ := hFP
  have hmeq : g.merge other x0 y0 ao = Except.ok ((List.range other.height.toNat).foldl
      (fun s (jj : Nat) => (List.range other.width.toNat).foldl
        (fun s2 (i : Nat) => mergePure other x0 y0 ao s2 (x0 + (i : Int))
          (y0 + (jj : Int))) s) g) := by
    unfold Grid.merge
    rw [if_neg (by omega)]
    exact hfeq
  refine ⟨_, hmeq, hFw, hFh, hFl, hFc, ?_, ?_⟩
  · intro x y hxa hxb hya hyb
    exact (hFI x y (by omega) (by omega) (by omega) (by omega)).1
      ⟨⟨hxa, hxb, hya, hyb⟩, by omega⟩
  · intro x y h1 h2 h3 h4 hnc
    exact (hFI x y h1 h2 h3 h4).2 (by tauto)

theorem merge_alive_mono (g g2 other : Grid) (x0 y0 : Int)
    (hg : g.wf) (hfx : x0 + other.width ≤ g.width) (hfy : y0 + other.height ≤ g.height)
    (hw2 : g2.width = g.width) (hl2 : g2.grid.length = g.grid.length)
    (hcov : ∀ x y : Int, x0 ≤ x → x < x0 + other.width → y0 ≤ y → y < y0 + other.height →
      cellAt g2 x y = mergedVal g other x0 y0 true x y)
    (hunc : ∀ x y : Int, 0 ≤ x → x < g.width → 0 ≤ y → y < g.height →
      ¬(x0 ≤ x ∧ x < x0 + other.width ∧ y0 ≤ y ∧ y < y0 + other.height) →
      cellAt g2 x y = cellAt g x y) :
    g.get_alive_cells ≤ g2.get_alive_cells := by
  obtain ⟨hgw, hgh, hglen, _⟩ := hg
  unfold Grid.get_alive_cells
  have hmono := countP_mono_pointwise g.grid g2.grid hl2.symm ?pt
  case pt =>
    intro k h1 h2 hal
    obtain ⟨x, y, hx0b, hxb, hy0b, hyb, hk⟩ := exists_coords hgw hgh
      (k := k) (by omega)
    have hcg : cellAt g x y = g.grid.get ⟨k, h1⟩ := cellAt_eq_get hk h1
    have hk2 : (y * g2.width + x).toNat = k := by rw [hw2]; exact hk
    have hcg2 : cellAt g2 x y = g2.grid.get ⟨k, h2⟩ := cellAt_eq_get hk2 h2
    rw [← hcg2]
    have halg : cellAt g x y = Cell.ALIVE := by rw [hcg]; exact hal
    by_cases hcovd : x0 ≤ x ∧ x < x0 + other.width ∧ y0 ≤ y ∧ y < y0 + other.height
    · rw [hcov x y hcovd.1 hcovd.2.1 hcovd.2.2.1 hcovd.2.2.2, mergedVal, if_pos rfl,
        if_pos (Or.inl halg)]
    · rw [hunc x y hx0b hxb hy0b hyb hcovd]
      exact halg
  exact_mod_cast hmono

/-- C7: for every well-formed destination and source grid that fits at
`(x0, y0)` (non-negative corner, window contained in the destination),
`merge` with `alive_only = true` succeeds and each covered cell is ALIVE
iff the destination or the source cell was ALIVE, and DEAD iff both were
DEAD; uncovered cells are untouched, so the destination's `alive_count`
never decreases.  With `alive_only = false` every covered cell is
overwritten with the source value, which can both decrease and increase
the count (closed 1x1 examples). -/
theorem C7_merge_contract (g other : Grid) (x0 y0 : Int)
    (hg : g.wf) (ho : other.wf) (hx0 : 0 ≤ x0) (hy0 : 0 ≤ y0)
    (hfx : x0 + other.width ≤ g.width) (hfy : y0 + other.height ≤ g.height) :
    mergeContractProp g other x0 y0 := by
  obtain ⟨g2, hok2, hw2, hh2, hl2, hc2, hcov2, hunc2⟩ :=
    merge_characterize g other x0 y0 true hg ho hx0 hy0 hfx hfy
  obtain ⟨g3, hok3, hw3, hh3, hl3, hc3, hcov3, hunc3⟩ :=
    merge_characterize g other x0 y0 false hg ho hx0 hy0 hfx hfy
  have hmono := merge_alive_mono g g2 other x0 y0 hg hfx hfy hw2 hl2 hcov2 hunc2
  obtain ⟨hgw, hgh, hglen, hgc⟩ := hg
  obtain ⟨how, hoh, holen, hoc⟩ := ho
  refine ⟨⟨g2, hok2, hw2, hh2, ?_, hunc2, hmono⟩,
    ⟨g3, hok3, hw3, hh3, ?_, hunc3⟩, by decide, by decide⟩
  · intro x y hxa hxb hya hyb
    have hv := hcov2 x y hxa hxb hya hyb
    have hgmem : cellAt g x y = Cell.DEAD ∨ cellAt g x y = Cell.ALIVE :=
      hgc _ (cellAt_mem (by omega) (by omega) (by omega) (by omega) hglen)
    have homem : cellAt other (x - x0) (y - y0) = Cell.DEAD ∨
        cellAt other (x - x0) (y - y0) = Cell.ALIVE :=
      hoc _ (cellAt_mem (by omega) (by omega) (by omega) (by omega) holen)
    rw [hv, mergedVal, if_pos rfl]
    constructor
    · by_cases hcnd : cellAt g x y = Cell.ALIVE ∨
          cellAt other (x - x0) (y - y0) = Cell.ALIVE
      · rw [if_pos hcnd]
        exact ⟨fun _ => hcnd, fun _ => rfl⟩
      · rw [if_neg hcnd]
        exact ⟨fun h => absurd h (by decide), fun h => absurd h hcnd⟩
    · by_cases hcnd : cellAt g x y = Cell.ALIVE ∨
          cellAt other (x - x0) (y - y0) = Cell.ALIVE
      · rw [if_pos hcnd]
        constructor
        · intro h
          exact absurd h (by decide)
        · intro hcon
          rcases hcnd with hA | hA
          · rw [hcon.1] at hA
            exact absurd hA (by decide)
          · rw [hcon.2] at hA
            exact absurd hA (by decide)
      · rw [if_neg hcnd]
        push_neg at hcnd
        have hgD : cellAt g x y = Cell.DEAD := by
          rcases hgmem with h | h
          · exact h
          · exact absurd h hcnd.1
        have hoD : cellAt other (x - x0) (y - y0) = Cell.DEAD := by
          rcases homem with h | h
          · exact h
          · exact absurd h hcnd.2
        exact ⟨fun _ => ⟨hgD, hoD⟩, fun _ => rfl⟩
  · intro x y hxa hxb hya hyb
    rw [hcov3 x y hxa hxb hya hyb, mergedVal, if_neg Bool.false_ne_true]

/-- Witness for C7 at concrete grids: a `2 x 2` destination with one alive
cell and a `1 x 1` alive source placed at `(1, 1)`. -/
theorem C7_merge_contract_witness :
    (⟨2, 2, [Cell.ALIVE, Cell.DEAD, Cell.DEAD, Cell.DEAD]⟩ : Grid).wf ∧
      (⟨1, 1, [Cell.ALIVE]⟩ : Grid).wf ∧ (0 : Int) ≤ 1 ∧ (0 : Int) ≤ 1 ∧
      1 + (⟨1, 1, [Cell.ALIVE]⟩ : Grid).width ≤
        (⟨2, 2, [Cell.ALIVE, Cell.DEAD, Cell.DEAD, Cell.DEAD]⟩ : Grid).width ∧
      1 + (⟨1, 1, [Cell.ALIVE]⟩ : Grid).height ≤
        (⟨2, 2, [Cell.ALIVE, Cell.DEAD, Cell.DEAD, Cell.DEAD]⟩ : Grid).height ∧
      mergeContractProp (⟨2, 2, [Cell.ALIVE, Cell.DEAD, Cell.DEAD, Cell.DEAD]⟩ : Grid)
        (⟨1, 1, [Cell.ALIVE]⟩ : Grid) 1 1 :=
  ⟨by decide, by decide, by decide, by decide, by decide, by decide,
    C7_merge_contract _ _ 1 1 (by decide) (by decide) (by decide) (by decide)
      (by decide) (by decide)⟩

/-! ## C8 — Grid::rotate -/

theorem rotBody_ok (g : Grid) (hlen : g.grid.length = (g.width * g.height).toNat)
    (st : Grid) (x y : Int) (hP : PRot g st)
    (hx0 : 0 ≤ x) (hx : x < g.width) (hy0 : 0 ≤ y) (hy : y < g.height) :
    (do
        let c ← g.get x (g.get_height - 1 - y)
        st.set y x c) = Except.ok (rotPure g st x y) ∧ PRot g (rotPure g st x y) := by
  obtain ⟨hpw, hph, hpl⟩ := hP
  have hstlen : st.grid.length = (st.width * st.height).toNat := by
    rw [hpw, hph, hpl, hlen, Int.mul_comm]
  have he : g.get_height = g.height := rfl
  rw [he]
  have hget : g.get x (g.height - 1 - y) =
      Except.ok (cellAt g x (g.height - 1 - y)) :=
    Grid.get_ok hx0 hx (by omega) (by omega) hlen
  have hset : st.set y x (cellAt g x (g.height - 1 - y)) =
      Except.ok (writeCell st y x (cellAt g x (g.height - 1 - y))) :=
    Grid.set_ok hy0 (by omega) hx0 (by omega) hstlen
  rw [hget, exceptBind_ok, hset]
  refine ⟨rfl, by rw [rotPure, writeCell_width]; exact hpw,
    by rw [rotPure, writeCell_height]; exact hph,
    by rw [rotPure, writeCell_length]; exact hpl⟩

theorem rotPure_single (g : Grid) (hlen : g.grid.length = (g.width * g.height).toNat)
    (st : Grid) (x y : Int) (hP : PRot g st)
    (hx0 : 0 ≤ x) (hx : x < g.width) (hy0 : 0 ≤ y) (hy : y < g.height)
    (hInv : RotInv g st y x) :
    PRot g (rotPure g st x y) ∧ RotInv g (rotPure g st x y) y (x + 1) := by
  obtain ⟨hpw, hph, hpl⟩ := hP
  have hstlen : st.grid.length = (st.width * st.height).toNat := by
    rw [hpw, hph, hpl, hlen, Int.mul_comm]
  refine ⟨⟨by rw [rotPure, writeCell_width]; exact hpw,
    by rw [rotPure, writeCell_height]; exact hph,
    by rw [rotPure, writeCell_length]; exact hpl⟩, ?_⟩
  intro px py hpx0 hpx hpy0 hpy hcase
  have hbyw : y < st.width := by omega
  have hbxh : x < st.height := by omega
  have hbpxw : px < st.width := by omega
  have hbpyh : py < st.height := by omega
  by_cases hxy : px = y ∧ py = x
  · obtain ⟨hex, hey⟩ := hxy
    subst hex
    subst hey
    rw [rotPure, cellAt_writeCell_self hpx0 hbpxw hpy0 hbpyh hstlen]
  · rw [rotPure, cellAt_writeCell_ne hy0 hbyw hpx0 hbpxw hx0 hpy0 hxy]
    exact hInv px py hpx0 hpx hpy0 hpy (by omega)

theorem RotInv_rowShift {g st : Grid} {y : Int} (hInv : RotInv g st y g.width) :
    RotInv g st (y + 1) 0 := by
  intro px py h1 h2 h3 h4 hc
  exact hInv px py h1 h2 h3 h4 (by omega)

theorem rotRow_fold (g : Grid) (hlen : g.grid.length = (g.width * g.height).toNat)
    (y : Int) (hy0 : 0 ≤ y) (hy : y < g.height) :
    ∀ k : Nat, (k : Int) ≤ g.width → ∀ st, PRot g st → RotInv g st y 0 →
      PRot g ((List.range k).foldl (fun s (i : Nat) => rotPure g s (i : Int) y) st) ∧
        RotInv g ((List.range k).foldl (fun s (i : Nat) => rotPure g s (i : Int) y) st) y
          (k : Int) := by
  intro k
  induction k with
  | zero =>
      intro _ st hP hI
      exact ⟨hP, hI⟩
  | succ k ih =>
      intro hk st hP hI
      rw [List.range_succ, List.foldl_append, List.foldl_cons, List.foldl_nil]
      obtain ⟨hP2, hI2⟩ := ih (by omega) st hP hI
      have hsingle := rotPure_single g hlen _ (k : Int) y hP2 (by positivity) (by omega)
        hy0 hy hI2
      refine ⟨hsingle.1, ?_⟩
      have hcast : ((k + 1 : Nat) : Int) = (k : Int) + 1 := by push_cast; ring
      rw [hcast]
      exact hsingle.2

theorem rotAll_fold (g : Grid) (hlen : g.grid.length = (g.width * g.height).toNat)
    (hgw : 0 ≤ g.width) :
    ∀ j : Nat, (j : Int) ≤ g.height → ∀ st, PRot g st → RotInv g st 0 0 →
      PRot g ((List.range j).foldl
          (fun s (jj : Nat) => (List.range g.width.toNat).foldl
            (fun s2 (i : Nat) => rotPure g s2 (i : Int) (jj : Int)) s) st) ∧
        RotInv g ((List.range j).foldl
          (fun s (jj : Nat) => (List.range g.width.toNat).foldl
            (fun s2 (i : Nat) => rotPure g s2 (i : Int) (jj : Int)) s) st) (j : Int) 0 := by
  intro j
  induction j with
  | zero =>
      intro _ st hP hI
      exact ⟨hP, hI⟩
  | succ j ih =>
      intro hj st hP hI
      rw [List.range_succ, List.foldl_append, List.foldl_cons, List.foldl_nil]
      obtain ⟨hP2, hI2⟩ := ih (by omega) st hP hI
      have hrow := rotRow_fold g hlen (j : Int) (by positivity) (by omega) g.width.toNat
        (by omega) _ hP2 hI2
      have hbeq : ((g.width.toNat : Nat) : Int) = g.width := by omega
      rw [hbeq] at hrow
      have hshift := RotInv_rowShift hrow.2
      have hcast : ((j + 1 : Nat) : Int) = (j : Int) + 1 := by push_cast; ring
      rw [hcast]
      exact ⟨hrow.1, hshift⟩

theorem rotate1_ok (g : Grid) (hgw : 0 ≤ g.width) (hgh : 0 ≤ g.height)
    (hlen : g.grid.length = (g.width * g.height).toNat) :
    ∃ g2, g.rotate 1 = Except.ok g2 ∧ RotSpec g g2 ∧ 0 ≤ g2.width ∧ 0 ≤ g2.height ∧
      g2.grid.length = (g2.width * g2.height).toNat := by
  have hP0 : PRot g (⟨g.get_height, g.get_width, g.grid⟩ : Grid) := ⟨rfl, rfl, rfl⟩
  have hI0 : RotInv g (⟨g.get_height, g.get_width, g.grid⟩ : Grid) 0 0 := by
    intro px py h1 h2 h3 h4 hc
    exact absurd hc (by omega)
  have hfold := foldCoords_ok (PRot g) (intRange g.get_height) (intRange g.get_width)
    (fun t x y => do
      let c ← g.get x (g.get_height - 1 - y)
      t.set y x c) (rotPure g) ?hbody _ hP0
  case hbody =>
    intro s a b hs ha hb
    have hA := mem_intRange ha
    have hB := mem_intRange hb
    have e1 : g.get_width = g.width := rfl
    have e2 : g.get_height = g.height := rfl
    rw [e1] at hA
    rw [e2] at hB
    exact rotBody_ok g hlen s a b hs hA.1 hA.2 hB.1 hB.2
  obtain ⟨hfeq, hfP⟩ := hfold
  have hnat : (intRange g.get_height).foldl
      (fun s2 y => (intRange g.get_width).foldl (fun s3 x => rotPure g s3 x y) s2)
        (⟨g.get_height, g.get_width, g.grid⟩ : Grid) =
      (List.range g.height.toNat).foldl
        (fun s (jj : Nat) => (List.range g.width.toNat).foldl
          (fun s2 (i : Nat) => rotPure g s2 (i : Int) (jj : Int)) s)
        (⟨g.get_height, g.get_width, g.grid⟩ : Grid) := by
    simp only [intRange, List.foldl_map]
    rfl
  rw [hnat] at hfeq hfP
  have hall := rotAll_fold g hlen hgw g.height.toNat (by omega) _ hP0 hI0
  obtain ⟨hFP, hFI⟩ := hall
  obtain ⟨hFw, hFh, hFl⟩ := hFP
  have hreq : g.rotate 1 = Except.ok ((List.range g.height.toNat).foldl
      (fun s (jj : Nat) => (List.range g.width.toNat).foldl
        (fun s2 (i : Nat) => rotPure g s2 (i : Int) (jj : Int)) s)
      (⟨g.get_height, g.get_width, g.grid⟩ : Grid)) := by
    show (if (1 : Int).tmod 4 = 1 ∨ (1 : Int).tmod 4 = -3 then
        foldCoords (intRange g.get_height) (intRange g.get_width)
          (fun t x y => do
            let c ← g.get x (g.get_height - 1 - y)
            t.set y x c) (⟨g.get_height, g.get_width, g.grid⟩ : Grid)
      else if (1 : Int).tmod 4 = -1 ∨ (1 : Int).tmod 4 = 3 then
        foldCoords (intRange g.get_height) (intRange g.get_width)
          (fun t x y => do
            let c ← g.get (g.get_width - 1 - x) y
            t.set y x c) (⟨g.get_height, g.get_width, g.grid⟩ : Grid)
      else if (1 : Int).tmod 4 = 2 ∨ (1 : Int).tmod 4 = -2 then
        Except.ok (⟨g.get_width, g.get_height, g.grid.reverse⟩ : Grid)
      else if (1 : Int).tmod 4 = 0 then Except.ok g
      else Except.ok (⟨g.get_height, g.get_width, g.grid⟩ : Grid)) = _
    rw [if_pos (by decide)]
    exact hfeq
  refine ⟨_, hreq, ⟨hFw, hFh, hFl, ?_⟩, by omega, by omega, ?_⟩
  · intro px py h1 h2 h3 h4
    have hcast : ((g.height.toNat : Nat) : Int) = g.height := by omega
    rw [hcast] at hFI
    exact hFI px py h1 h2 h3 h4 (by omega)
  · rw [hFl, hFw, hFh, hlen, Int.mul_comm]

theorem rotSpec_four (g a b c d : Grid)
    (hglen : g.grid.length = (g.width * g.height).toNat)
    (hgw : 0 ≤ g.width) (hgh : 0 ≤ g.height)
    (hga : RotSpec g a) (hab : RotSpec a b) (hbc : RotSpec b c) (hcd : RotSpec c d) :
    d = g := by
  obtain ⟨haw, hah, hal, hasp⟩ := hga
  obtain ⟨hbw, hbh, hbl, hbsp⟩ := hab
  obtain ⟨hcw, hch, hcl, hcsp⟩ := hbc
  obtain ⟨hdw, hdh, hdl, hdsp⟩ := hcd
  have hdww : d.width = g.width := by rw [hdw, hch, hbw, hah]
  have hdhh : d.height = g.height := by rw [hdh, hcw, hbh, haw]
  have hpt : ∀ X Y : Int, 0 ≤ X → X < g.width → 0 ≤ Y → Y < g.height →
      cellAt d X Y = cellAt g X Y := by
    intro X Y hX0 hX hY0 hY
    have s1 : cellAt d X Y = cellAt c Y (c.height - 1 - X) :=
      hdsp X Y hX0 (by rw [hch, hbw, hah]; exact hX) hY0 (by rw [hcw, hbh, haw]; exact hY)
    have hch2 : c.height = g.width := by rw [hch, hbw, hah]
    rw [hch2] at s1
    have s2 : cellAt c Y (g.width - 1 - X) =
        cellAt b (g.width - 1 - X) (b.height - 1 - Y) :=
      hcsp Y (g.width - 1 - X) hY0 (by rw [hbh, haw]; exact hY) (by omega)
        (by rw [hbw, hah]; omega)
    have hbh2 : b.height = g.height := by rw [hbh, haw]
    rw [hbh2] at s2
    have s3 : cellAt b (g.width - 1 - X) (g.height - 1 - Y) =
        cellAt a (g.height - 1 - Y) (a.height - 1 - (g.width - 1 - X)) :=
      hbsp (g.width - 1 - X) (g.height - 1 - Y) (by omega) (by rw [hah]; omega)
        (by omega) (by rw [haw]; omega)
    rw [hah] at s3
    have harg : g.width - 1 - (g.width - 1 - X) = X := by ring
    rw [harg] at s3
    have s4 : cellAt a (g.height - 1 - Y) X =
        cellAt g X (g.height - 1 - (g.height - 1 - Y)) :=
      hasp (g.height - 1 - Y) X (by omega) (by omega) hX0 hX
    have harg2 : g.height - 1 - (g.height - 1 - Y) = Y := by ring
    rw [harg2] at s4
    rw [s1, s2, s3, s4]
  have hlend : d.grid.length = g.grid.length := by rw [hdl, hcl, hbl, hal]
  have hgridEq : d.grid = g.grid := by
    apply List.ext_getElem hlend
    intro k hk1 hk2
    obtain ⟨x, y, hx0b, hxb, hy0b, hyb, hk⟩ := exists_coords hgw hgh (k := k) (by omega)
    have hcg : cellAt g x y = g.grid.get ⟨k, hk2⟩ := cellAt_eq_get hk hk2
    have hk2b : (y * d.width + x).toNat = k := by rw [hdww]; exact hk
    have hcd2 : cellAt d x y = d.grid.get ⟨k, hk1⟩ := cellAt_eq_get hk2b hk1
    have hxy := hpt x y hx0b hxb hy0b hyb
    rw [hcd2, hcg] at hxy
    exact hxy
  show d = Grid.mk g.width g.height g.grid
  rw [← hdww, ← hdhh, ← hgridEq]

theorem rotate_of_tmod_zero (g : Grid) (r : Int) (hr : Int.tmod r 4 = 0) :
    g.rotate r = Except.ok g := by
  simp only [Grid.rotate]
  rw [hr]
  norm_num

/-- C8: for every (well-formed) grid, `rotate(4)`, `rotate(0)` and
`rotate(-4)` all return the grid itself (the truncating `rotation % 4`
maps each to the residue 0, whose branch returns `*this`), and applying
`rotate(1)` four times returns a grid equal to the original (each
quarter-turn writes destination `(y, x)` from source `(x, height-1-y)`;
four such trips are the identity). -/
theorem C8_rotate (g : Grid) (hgw : 0 ≤ g.width) (hgh : 0 ≤ g.height)
    (hlen : g.grid.length = (g.width * g.height).toNat) :
    g.rotate 4 = Except.ok g ∧ g.rotate 0 = Except.ok g ∧
      g.rotate (-4) = Except.ok g ∧
      (g.rotate 1 >>= fun a => a.rotate 1 >>= fun b => b.rotate 1 >>=
        fun c => c.rotate 1) = Except.ok g := by
  refine ⟨rotate_of_tmod_zero g 4 (by decide), rotate_of_tmod_zero g 0 (by decide),
    rotate_of_tmod_zero g (-4) (by decide), ?_⟩
  obtain ⟨a, ha, hsa, haw0, hah0, halen⟩ := rotate1_ok g hgw hgh hlen
  obtain ⟨b, hb, hsb, hbw0, hbh0, hblen⟩ := rotate1_ok a haw0 hah0 halen
  obtain ⟨c, hc2, hsc, hcw0, hch0, hclen⟩ := rotate1_ok b hbw0 hbh0 hblen
  obtain ⟨d, hd, hsd, hdw0, hdh0, hdlen⟩ := rotate1_ok c hcw0 hch0 hclen
  rw [ha, exceptBind_ok, hb, exceptBind_ok, hc2, exceptBind_ok, hd,
    rotSpec_four g a b c d hlen hgw hgh hsa hsb hsc hsd]

/-- Witness for C8 at a concrete `2 x 3` grid. -/
theorem C8_rotate_witness :
    (0 : Int) ≤ (⟨2, 3, [Cell.ALIVE, Cell.DEAD, Cell.DEAD, Cell.ALIVE, Cell.ALIVE,
        Cell.ALIVE]⟩ : Grid).width ∧
      (0 : Int) ≤ (⟨2, 3, [Cell.ALIVE, Cell.DEAD, Cell.DEAD, Cell.ALIVE, Cell.ALIVE,
        Cell.ALIVE]⟩ : Grid).height ∧
      (⟨2, 3, [Cell.ALIVE, Cell.DEAD, Cell.DEAD, Cell.ALIVE, Cell.ALIVE,
        Cell.ALIVE]⟩ : Grid).grid.length =
        ((⟨2, 3, [Cell.ALIVE, Cell.DEAD, Cell.DEAD, Cell.ALIVE, Cell.ALIVE,
          Cell.ALIVE]⟩ : Grid).width *
          (⟨2, 3, [Cell.ALIVE, Cell.DEAD, Cell.DEAD, Cell.ALIVE, Cell.ALIVE,
            Cell.ALIVE]⟩ : Grid).height).toNat ∧
      ((⟨2, 3, [Cell.ALIVE, Cell.DEAD, Cell.DEAD, Cell.ALIVE, Cell.ALIVE,
          Cell.ALIVE]⟩ : Grid).rotate 4 =
        Except.ok (⟨2, 3, [Cell.ALIVE, Cell.DEAD, Cell.DEAD, Cell.ALIVE, Cell.ALIVE,
          Cell.ALIVE]⟩ : Grid) ∧
        (⟨2, 3, [Cell.ALIVE, Cell.DEAD, Cell.DEAD, Cell.ALIVE, Cell.ALIVE,
          Cell.ALIVE]⟩ : Grid).rotate 0 =
        Except.ok (⟨2, 3, [Cell.ALIVE, Cell.DEAD, Cell.DEAD, Cell.ALIVE, Cell.ALIVE,
          Cell.ALIVE]⟩ : Grid) ∧
        (⟨2, 3, [Cell.ALIVE, Cell.DEAD, Cell.DEAD, Cell.ALIVE, Cell.ALIVE,
          Cell.ALIVE]⟩ : Grid).rotate (-4) =
        Except.ok (⟨2, 3, [Cell.ALIVE, Cell.DEAD, Cell.DEAD, Cell.ALIVE, Cell.ALIVE,
          Cell.ALIVE]⟩ : Grid) ∧
        ((⟨2, 3, [Cell.ALIVE, Cell.DEAD, Cell.DEAD, Cell.ALIVE, Cell.ALIVE,
          Cell.ALIVE]⟩ : Grid).rotate 1 >>= fun a => a.rotate 1 >>= fun b =>
            b.rotate 1 >>= fun c => c.rotate 1) =
        Except.ok (⟨2, 3, [Cell.ALIVE, Cell.DEAD, Cell.DEAD, Cell.ALIVE, Cell.ALIVE,
          Cell.ALIVE]⟩ : Grid)) :=
  ⟨by decide, by decide, by decide,
    C8_rotate _ (by decide) (by decide) (by decide)⟩

/-- C9: the claim — the binary encoding of a `w x h` grid is exactly
`8 + ceil(w*h/8)` bytes, 10 for a `3 x 3` grid, with every cell's bit
present — fails on the code: `padSize = total + (total % 8)` is `10` for
`total = 9`, so the data loop reads `grid.grid[9]` past the end of the
9-element vector (undefined behaviour); of the cells, only bits flushed in
full groups of eight are ever written, so the ninth cell's bit could never
be emitted.  Evaluating the embedded encoder on the 3x3 diagonal grid
faults instead of producing the 10 documented bytes. -/
theorem C9_save_binary_truncates :
    Zoo.save_binary_byte_count
        (⟨3, 3, [Cell.ALIVE, Cell.DEAD, Cell.DEAD, Cell.DEAD, Cell.ALIVE, Cell.DEAD,
          Cell.DEAD, Cell.DEAD, Cell.ALIVE]⟩ : Grid) =
      Except.error CppErr.ub := by
  decide

/-! ## C10 — advance with non-positive step counts -/

/-- C10: for every world, flag and `steps ≤ 0`, `advance(steps, toroidal)`
performs no step and returns the world unchanged (never failing): the
source loop `for (int i = 0; i < steps; i++)` runs zero iterations. -/
theorem C10_advance_nonpositive (w : World) (steps : Int) (toroidal : Bool)
    (h : steps ≤ 0) : w.advance steps toroidal = Except.ok w := by
  unfold World.advance intRange
  rw [Int.toNat_of_nonpos h]
  rfl

/-- Witness for C10 at a concrete world and `steps = -3`. -/
theorem C10_advance_nonpositive_witness :
    (-3 : Int) ≤ 0 ∧ (World.ofDims 2 2).advance (-3) true = Except.ok (World.ofDims 2 2) :=
  ⟨by decide, C10_advance_nonpositive (World.ofDims 2 2) (-3) true (by decide)⟩

end GOL
